import Mathlib

/-!
Shallow embedding of the Durak multiplayer server's per-room game engine
(src/server.js, final definitions block).  Pure data is modelled directly;
the socket handlers become functions from a room state (plus the acting
player's id and intent data) to either a new room state together with the
events the handler emits, or an error value standing for a JavaScript
runtime exception (a `TypeError` raised by a property access on
`undefined`).  Timers are not modelled; the callback body of the throw-in
timer is the same settlement function `completeTakeCards` that the
`finishThrowIn` handler calls, and it is embedded as such.
-/

namespace Durak

/-- Game constant from server.js: `INITIAL_HAND_SIZE = 6`. -/
def INITIAL_HAND_SIZE : Nat := 6

/-- Game constant from server.js: `MAX_BATTLEFIELD_SIZE = 6`. -/
def MAX_BATTLEFIELD_SIZE : Nat := 6

/-- A card as built by `createDeck`: suit, rank, numeric value, trump flag. -/
structure Card where
  suit : String
  rank : String
  value : Nat
  isTrump : Bool
deriving DecidableEq

/-- A player record, with the fields the engine reads. -/
structure Player where
  id : String
  name : String
  hand : List Card
  connected : Bool
  position : Nat
  isActive : Bool
  hasWon : Bool
deriving DecidableEq

/-- A battlefield pair `{attack, defense, attackerId}`. -/
structure BattlefieldPair where
  attack : Card
  defense : Option Card
  attackerId : String
deriving DecidableEq

/-- A throw-in entry `{card, playerId}`. -/
structure ThrowInEntry where
  card : Card
  playerId : String
deriving DecidableEq

/-- A winners-list entry `{id, name, position}` pushed by `checkForWinner`. -/
structure Winner where
  id : String
  name : String
  position : Nat
deriving DecidableEq

/-- The per-room state read and written by the game handlers.  String-valued
`gameState` and `gamePhase` mirror the source's string tags; `null` ids are
`Option.none`.  The JavaScript `Set` `validThrowInRanks` is modelled as a
list observed only through membership. -/
structure Room where
  players : List Player
  gameState : String
  gamePhase : String
  deck : List Card
  battlefield : List BattlefieldPair
  trumpSuit : String
  initialAttackerId : Option String
  currentDefenderId : Option String
  additionalAttackers : List String
  validThrowInRanks : List String
  throwInCards : List ThrowInEntry
  maxThrowInTotal : Nat
  winners : List Winner
  playerOrder : List String
deriving DecidableEq

/-- The observable outputs of a handler: an error notice sent back to the
acting player, a room-wide event, or the game-over / draw announcements. -/
inductive Emit where
  | errorMsg (msg : String)
  | event (name : String)
  | gameOver (durakId : String)
  | gameDraw
deriving DecidableEq

/-! ## JavaScript array semantics -/

/-- JavaScript `arr[i]` for an integer index: negative or out-of-range
indexes yield `undefined`, modelled as `none`. -/
def jsIndex {α : Type} (l : List α) (i : Int) : Option α :=
  if i < 0 then none else l.get? i.toNat

/-- JavaScript `arr.splice(i, 1)`: a negative start counts from the end
(clamped at 0), a start at or past the length removes nothing. -/
def jsSpliceRemove1 {α : Type} (l : List α) (i : Int) : List α :=
  let n : Int := l.length
  let start : Nat := if i < 0 then (max (n + i) 0).toNat else (min i n).toNat
  l.take start ++ l.drop (start + 1)

/-- JavaScript `arr.pop()`: remove and return the last element. -/
def popLast? {α : Type} : List α → Option (List α × α)
  | [] => none
  | a :: rest =>
    match popLast? rest with
    | none => some ([], a)
    | some (front, last) => some (a :: front, last)

/-- Mutating the first array element matching an id, as the source does by
`find`-ing a player object and assigning to it. -/
def updateFirst (ps : List Player) (pid : String) (f : Player → Player) : List Player :=
  match ps with
  | [] => []
  | p :: rest => if p.id == pid then f p :: rest else p :: updateFirst rest pid f

/-- Assigning `defense` on the first undefended battlefield pair, as the
source does via `battlefield.find(pair => !pair.defense)`. -/
def defendFirst (bf : List BattlefieldPair) (c : Card) : List BattlefieldPair :=
  match bf with
  | [] => []
  | pair :: rest =>
    if pair.defense.isNone then { pair with defense := some c } :: rest
    else pair :: defendFirst rest c

/-! ## Card and deck model -/

/-- The four suits of `const suits`. -/
def suits : List String := ["♠", "♥", "♦", "♣"]

/-- The nine ranks of `const ranks` (classic 36-card mode). -/
def ranks : List String := ["6", "7", "8", "9", "10", "J", "Q", "K", "A"]

/-- The `rankValues` mapping. -/
def rankValues (r : String) : Nat :=
  if r == "6" then 6 else if r == "7" then 7 else if r == "8" then 8
  else if r == "9" then 9 else if r == "10" then 10 else if r == "J" then 11
  else if r == "Q" then 12 else if r == "K" then 13 else if r == "A" then 14
  else 0

/-- The 36 cards `createDeck` builds (suit-major order) before the
`Math.random` Fisher-Yates shuffle, which is not modelled: the shuffle only
permutes this pool. -/
def createDeckCards : List Card :=
  (suits.map (fun s => ranks.map (fun r => Card.mk s r (rankValues r) false))).flatten

/-- The `canDefend(defenseCard, attackCard)` helper, verbatim from the
source: trump beats non-trump; otherwise same suit and strictly higher
value. -/
def canDefend (defenseCard attackCard : Card) : Bool :=
  if defenseCard.isTrump && !attackCard.isTrump then true
  else if defenseCard.suit == attackCard.suit && decide (defenseCard.value > attackCard.value) then true
  else false

/-! ## Seating and role helpers -/

/-- First player whose `position` equals `pos`. -/
def findByPosition (ps : List Player) (pos : Nat) : Option Player :=
  ps.find? (fun p => p.position == pos)

/-- The probe loop of `getNextActivePlayer`: scan positions forward
(wrapping modulo the seat count) for at most `fuel` attempts. -/
def scanNext (ps : List Player) : Nat → Nat → Option Player
  | _, 0 => none
  | pos, fuel + 1 =>
    match findByPosition ps pos with
    | some p =>
      if p.isActive && !p.hasWon then some p
      else scanNext ps ((pos + 1) % ps.length) fuel
    | none => scanNext ps ((pos + 1) % ps.length) fuel

/-- `getNextActivePlayer(room, afterPlayerId)`. -/
def getNextActivePlayer (room : Room) (afterPlayerId : String) : Option Player :=
  match room.players.find? (fun p => p.id == afterPlayerId) with
  | none => none
  | some afterPlayer =>
    scanNext room.players ((afterPlayer.position + 1) % room.players.length) room.players.length

/-- `getAttackers(room)`: active, non-winning players other than the
current defender who still hold cards. -/
def getAttackers (room : Room) : List Player :=
  match room.currentDefenderId with
  | none => []
  | some did =>
    room.players.filter (fun p => p.isActive && !p.hasWon && p.id != did && p.hand.length > 0)

/-- Insertion step for the position sort used by `updatePlayerOrder`. -/
def insertByPosition (p : Player) : List Player → List Player
  | [] => [p]
  | q :: rest => if p.position < q.position then p :: q :: rest else q :: insertByPosition p rest

/-- Sort players by `position` (the source uses a stable comparator sort). -/
def sortByPosition : List Player → List Player
  | [] => []
  | p :: rest => insertByPosition p (sortByPosition rest)

/-- `updatePlayerOrder(room)`: ids of active non-winning players in
position order. -/
def updatePlayerOrder (room : Room) : Room :=
  { room with
    playerOrder := (sortByPosition (room.players.filter (fun p => p.isActive && !p.hasWon))).map (fun p => p.id) }

/-! ## Drawing -/

/-- Refreshing a drawn card's trump flag (`card.isTrump = card.suit === room.trumpSuit`). -/
def markTrump (ts : String) (c : Card) : Card :=
  { c with isTrump := c.suit == ts }

/-- The `while` loop of `drawCardsForPlayer`: pop from the end of the deck
and push onto the hand until the hand holds `INITIAL_HAND_SIZE` cards or the
deck empties.  `fuel` bounds the iterations; `INITIAL_HAND_SIZE` is always
enough fuel since each iteration grows the hand. -/
def drawLoop (ts : String) : Nat → List Card → List Card → List Card × List Card
  | 0, deck, hand => (deck, hand)
  | fuel + 1, deck, hand =>
    if hand.length < INITIAL_HAND_SIZE then
      match popLast? deck with
      | none => (deck, hand)
      | some (deckRest, c) => drawLoop ts fuel deckRest (hand ++ [markTrump ts c])
    else (deck, hand)

/-- `drawCardsForPlayer` acting on a deck and one hand. -/
def drawHand (ts : String) (deck hand : List Card) : List Card × List Card :=
  drawLoop ts INITIAL_HAND_SIZE deck hand

/-- Find one player by id and refill their hand, as the settlement code does
for the initial attacker; when no player matches the deck and players are
untouched (the source guards with `if (initialAttacker)`). -/
def drawFirstMatch (ts : String) (pid : String) : List Card → List Player → List Card × List Player
  | deck, [] => (deck, [])
  | deck, p :: rest =>
    if p.id == pid then
      let r := drawHand ts deck p.hand
      (r.1, { p with hand := r.2 } :: rest)
    else
      let r := drawFirstMatch ts pid deck rest
      (r.1, p :: r.2)

/-- The `room.players.forEach` refill loops of the settlement code: walk the
player array in order, refilling each slot satisfying `cond` from the shared
deck. -/
def drawSlots (ts : String) (cond : Player → Bool) : List Card → List Player → List Card × List Player
  | deck, [] => (deck, [])
  | deck, p :: rest =>
    if cond p then
      let r1 := drawHand ts deck p.hand
      let r2 := drawSlots ts cond r1.1 rest
      (r2.1, { p with hand := r1.2 } :: r2.2)
    else
      let r2 := drawSlots ts cond deck rest
      (r2.1, p :: r2.2)

/-! ## Observation helpers -/

/-- First player matching an id, as `room.players.find(p => p.id === x)`. -/
def findPlayer (room : Room) (pid : String) : Option Player :=
  room.players.find? (fun p => p.id == pid)

/-- The hand of the first player matching an id. -/
def handOf (room : Room) (pid : String) : Option (List Card) :=
  (findPlayer room pid).map (fun p => p.hand)

/-- The cards a battlefield pair contributes, attack before defense. -/
def pairCards (pr : BattlefieldPair) : List Card :=
  pr.attack :: (match pr.defense with | some d => [d] | none => [])

/-- All battlefield cards in the order `completeTakeCards` pushes them. -/
def battlefieldCards (bf : List BattlefieldPair) : List Card :=
  (bf.map pairCards).flatten

/-- The rank set collected from the battlefield (attacks and present
defenses), as the attack-rank check and `takeCards` build it.  The source
uses a `Set`; only membership is ever observed. -/
def battlefieldRanks (bf : List BattlefieldPair) : List String :=
  (bf.map (fun pr => pr.attack.rank :: (match pr.defense with | some d => [d.rank] | none => []))).flatten

/-- Number of cards lying on the battlefield. -/
def battlefieldCount (bf : List BattlefieldPair) : Nat :=
  (bf.map (fun pr => 1 + (if pr.defense.isSome then 1 else 0))).sum

/-- Total cards held in all hands. -/
def handsTotal (ps : List Player) : Nat :=
  (ps.map (fun p => p.hand.length)).sum

/-- Cards in circulation inside a room: deck, hands, battlefield and
throw-in pile. -/
def totalCards (room : Room) : Nat :=
  room.deck.length + handsTotal room.players + battlefieldCount room.battlefield +
    room.throwInCards.length

/-! ## Engine functions -/

/-- `drawCardsForPlayer(room, player)` where the player was found by id. -/
def drawCardsForPlayer (room : Room) (pid : String) : Room :=
  let r := drawFirstMatch room.trumpSuit pid room.deck room.players
  { room with deck := r.1, players := r.2 }

/-- The role-reassignment step of `checkForWinner`: when the freshly won
player held the defender role, the next eligible player (sought on the
already-deactivated roster) defends; otherwise, when they held the initial
attacker role, the next eligible player attacks. -/
def winnerRoleFix (room1 : Room) (wasDefender wasAttacker : Bool) (pid : String) : Room :=
  if wasDefender then
    match getNextActivePlayer room1 pid with
    | some nd => { room1 with currentDefenderId := some nd.id }
    | none => room1
  else if wasAttacker then
    match getNextActivePlayer room1 pid with
    | some na => { room1 with initialAttackerId := some na.id }
    | none => room1
  else room1

/-- `checkForWinner(room, player)`: a player emptied of cards while the deck
is empty is marked as a winner, appended to the winners list, replaced in
the defender or attacker role by the next eligible player, and the player
order is refreshed. -/
def checkForWinner (room : Room) (pid : String) : Room × List Emit :=
  match findPlayer room pid with
  | none => (room, [])
  | some p =>
    if p.hand.length == 0 && room.deck.length == 0 then
      let room1 : Room :=
        { room with
          players := updateFirst room.players pid (fun q => { q with hasWon := true, isActive := false }),
          winners := room.winners ++ [Winner.mk p.id p.name (room.winners.length + 1)] }
      let room2 : Room :=
        winnerRoleFix room1 (room.currentDefenderId == some pid)
          (room.initialAttackerId == some pid) pid
      (updatePlayerOrder room2, [Emit.event "playerWon"])
    else (room, [])

/-- `checkGameEnd(room)`: once the deck is empty and at most one active
non-winning player still holds cards, the game state becomes `finished` and
either the sole remaining player is announced as the Durak or a draw is
announced. -/
def checkGameEnd (room : Room) : Room × List Emit :=
  let activePlayers := room.players.filter (fun p => p.isActive && !p.hasWon)
  if room.deck.length == 0 then
    let playersWithCards := activePlayers.filter (fun p => p.hand.length > 0)
    if playersWithCards.length ≤ 1 then
      let room1 : Room := { room with gameState := "finished" }
      match playersWithCards with
      | [durak] => (room1, [Emit.gameOver durak.id])
      | _ => (room1, [Emit.gameDraw])
    else (room, [])
  else (room, [])

/-- `completeTakeCards(room)`: the defender takes every battlefield and
throw-in card, the piles are cleared, the initial attacker then the other
eligible players (in array order, skipping the defender) refill to six, the
phase returns to `attacking` and the end of game is checked.  When the
defender cannot be found and a card push would dereference `undefined`, the
JavaScript code throws; that is the error case. -/
def completeTakeCards (room : Room) : Except Unit (Room × List Emit) :=
  let defFound : Bool :=
    match room.currentDefenderId with
    | none => false
    | some did => (findPlayer room did).isSome
  if !defFound && !(room.battlefield.isEmpty && room.throwInCards.isEmpty) then .error ()
  else
    let taken : List Card := battlefieldCards room.battlefield ++ room.throwInCards.map (fun e => e.card)
    let players1 : List Player :=
      match room.currentDefenderId with
      | none => room.players
      | some did => updateFirst room.players did (fun q => { q with hand := q.hand ++ taken })
    let room1 : Room :=
      { room with players := players1, battlefield := [], throwInCards := [], validThrowInRanks := [] }
    let r2 : List Card × List Player :=
      match room.initialAttackerId with
      | none => (room1.deck, room1.players)
      | some aid => drawFirstMatch room.trumpSuit aid room1.deck room1.players
    let r3 : List Card × List Player :=
      drawSlots room.trumpSuit
        (fun p => room.initialAttackerId != some p.id && room.currentDefenderId != some p.id &&
          p.isActive && !p.hasWon)
        r2.1 r2.2
    let room2 : Room := { room1 with deck := r3.1, players := r3.2, gamePhase := "attacking" }
    let r4 := checkGameEnd room2
    .ok (r4.1, [Emit.event "cardsTaken"] ++ r4.2)

/-- `completeSuccessfulDefense(room)`: battlefield and throw-in pile are
discarded, the initial attacker then every other active non-winning player
(the defender included, in array order) refills to six, the defender becomes
the new initial attacker with the next eligible player defending, the
additional attackers are recomputed, the phase returns to `attacking` and
the end of game is checked. -/
def completeSuccessfulDefense (room : Room) : Room × List Emit :=
  let defenderId : Option String :=
    match room.currentDefenderId with
    | none => none
    | some did => (findPlayer room did).map (fun p => p.id)
  let room1 : Room := { room with battlefield := [], throwInCards := [] }
  let r2 : List Card × List Player :=
    match room.initialAttackerId with
    | none => (room1.deck, room1.players)
    | some aid => drawFirstMatch room.trumpSuit aid room1.deck room1.players
  let r3 : List Card × List Player :=
    drawSlots room.trumpSuit
      (fun p => room.initialAttackerId != some p.id && p.isActive && !p.hasWon)
      r2.1 r2.2
  let room2 : Room := { room1 with deck := r3.1, players := r3.2 }
  let room3 : Room :=
    match defenderId with
    | none => room2
    | some did =>
      let ra : Room := { room2 with initialAttackerId := some did }
      match getNextActivePlayer ra did with
      | none => ra
      | some nd =>
        let rb : Room := { ra with currentDefenderId := some nd.id }
        { rb with
          additionalAttackers :=
            ((getAttackers rb).filter (fun p => some p.id != rb.initialAttackerId)).map (fun p => p.id) }
  let room4 : Room := { room3 with gamePhase := "attacking" }
  let r5 := checkGameEnd room4
  (r5.1, [Emit.event "attackEnded"] ++ r5.2)

/-! ## Socket handlers -/

/-- The payload of a `playCard` intent.  The source handler destructures
only `cardIndex` from the incoming data; any target-pair index a client may
send alongside is never read. -/
structure PlayData where
  cardIndex : Int
  targetAttackIndex : Int
deriving DecidableEq

/-- The `playCard` handler: attack, defend or throw in, depending on the
acting player's role and the phase.  `.error ()` marks the states in which
the JavaScript handler throws a `TypeError` (a property access on
`undefined`: a missing defender record, or a card fetched at a negative
index).  With a negative index and an empty battlefield the source instead
pushes an `undefined` attack card and removes the hand's last card via
`splice(-1, 1)`; a `Card` value is required here, so that corrupting path is
also signalled as a fault. -/
def playCard (room : Room) (senderId : String) (data : PlayData) : Except Unit (Room × List Emit) :=
  if room.gameState != "playing" then .ok (room, [])
  else
    match findPlayer room senderId with
    | none => .ok (room, [])
    | some player =>
      if (player.hand.length : Int) ≤ data.cardIndex then .ok (room, [])
      else
        let cardOpt := jsIndex player.hand data.cardIndex
        if (room.initialAttackerId == some senderId || room.additionalAttackers.contains senderId) &&
            room.gamePhase == "attacking" then
          match room.currentDefenderId with
          | none => .error ()
          | some did =>
            match findPlayer room did with
            | none => .error ()
            | some defender =>
              let maxAttacks := min MAX_BATTLEFIELD_SIZE defender.hand.length
              if maxAttacks ≤ room.battlefield.length then
                .ok (room, [Emit.errorMsg "Cannot attack with more cards"])
              else
                if room.battlefield.length > 0 then
                  match cardOpt with
                  | none => .error ()
                  | some card =>
                    if !((battlefieldRanks room.battlefield).contains card.rank) then
                      .ok (room, [Emit.errorMsg "Invalid card for attack"])
                    else
                      let room1 : Room :=
                        { room with
                          battlefield := room.battlefield ++ [BattlefieldPair.mk card none senderId],
                          players := updateFirst room.players senderId
                            (fun q => { q with hand := jsSpliceRemove1 q.hand data.cardIndex }),
                          gamePhase := "defending" }
                      let r := checkForWinner room1 senderId
                      .ok (r.1, [Emit.event "cardPlayed"] ++ r.2)
                else
                  match cardOpt with
                  | none => .error ()
                  | some card =>
                    let room1 : Room :=
                      { room with
                        battlefield := room.battlefield ++ [BattlefieldPair.mk card none senderId],
                        players := updateFirst room.players senderId
                          (fun q => { q with hand := jsSpliceRemove1 q.hand data.cardIndex }),
                        gamePhase := "defending" }
                    let r := checkForWinner room1 senderId
                    .ok (r.1, [Emit.event "cardPlayed"] ++ r.2)
        else if room.currentDefenderId == some senderId && room.gamePhase == "defending" then
          match room.battlefield.find? (fun pr => pr.defense.isNone) with
          | none => .ok (room, [])
          | some undefendedPair =>
            match cardOpt with
            | none => .error ()
            | some card =>
              if canDefend card undefendedPair.attack then
                let room1 : Room :=
                  { room with
                    battlefield := defendFirst room.battlefield card,
                    players := updateFirst room.players senderId
                      (fun q => { q with hand := jsSpliceRemove1 q.hand data.cardIndex }) }
                let room2 : Room :=
                  if room1.battlefield.all (fun pr => pr.defense.isSome) then
                    { room1 with gamePhase := "attacking" }
                  else room1
                let r := checkForWinner room2 senderId
                .ok (r.1, [Emit.event "cardPlayed"] ++ r.2)
              else .ok (room, [Emit.errorMsg "This card cannot defend"])
        else if (room.initialAttackerId == some senderId || room.additionalAttackers.contains senderId) &&
            room.gamePhase == "throwIn" then
          match cardOpt with
          | none => .error ()
          | some card =>
            if !(room.validThrowInRanks.contains card.rank) then
              .ok (room, [Emit.errorMsg "You can only throw in cards with ranks that were already played"])
            else
              if room.maxThrowInTotal ≤ room.battlefield.length + room.throwInCards.length then
                .ok (room, [Emit.errorMsg "Cannot add more cards"])
              else
                let room1 : Room :=
                  { room with
                    throwInCards := room.throwInCards ++ [ThrowInEntry.mk card senderId],
                    players := updateFirst room.players senderId
                      (fun q => { q with hand := jsSpliceRemove1 q.hand data.cardIndex }) }
                let r := checkForWinner room1 senderId
                .ok (r.1, [Emit.event "throwInCard"] ++ r.2)
        else .ok (room, [])

/-- The `deflectAttack` handler: before anything is defended, the defender
may answer with an equal-rank card, pushing it as a new attack and passing
the defender role to the next eligible player. -/
def deflectAttack (room : Room) (senderId : String) (cardIndex : Int) : Except Unit (Room × List Emit) :=
  if room.gameState != "playing" then .ok (room, [])
  else if room.currentDefenderId != some senderId then .ok (room, [])
  else if room.gamePhase != "defending" then .ok (room, [])
  else if room.battlefield.any (fun pr => pr.defense.isSome) then
    .ok (room, [Emit.errorMsg "Cannot deflect after defending cards"])
  else
    match getNextActivePlayer room senderId with
    | none => .ok (room, [Emit.errorMsg "Cannot deflect - no next player to defend"])
    | some nextDefender =>
      match findPlayer room senderId with
      | none => .error ()
      | some defender =>
        if (defender.hand.length : Int) ≤ cardIndex then .ok (room, [])
        else
          match jsIndex defender.hand cardIndex with
          | none =>
            if room.battlefield.any (fun pr => pr.defense.isNone) then .error ()
            else .ok (room, [Emit.errorMsg "You can only deflect with cards of the same rank"])
          | some deflectCard =>
            if !(room.battlefield.any (fun pr => pr.defense.isNone && pr.attack.rank == deflectCard.rank)) then
              .ok (room, [Emit.errorMsg "You can only deflect with cards of the same rank"])
            else
              if min MAX_BATTLEFIELD_SIZE nextDefender.hand.length < room.battlefield.length + 1 then
                .ok (room, [Emit.errorMsg "Cannot deflect - would exceed card limit for next defender"])
              else
                let room1 : Room :=
                  { room with
                    battlefield := room.battlefield ++ [BattlefieldPair.mk deflectCard none senderId],
                    players := updateFirst room.players senderId
                      (fun q => { q with hand := jsSpliceRemove1 q.hand cardIndex }) }
                let room2 : Room := { room1 with currentDefenderId := some nextDefender.id }
                let room3 : Room :=
                  { room2 with
                    additionalAttackers :=
                      ((getAttackers room2).filter (fun p => some p.id != room2.initialAttackerId)).map
                        (fun p => p.id),
                    gamePhase := "defending" }
                let r := checkForWinner room3 senderId
                .ok (r.1, [Emit.event "attackDeflected"] ++ r.2)

/-- The `takeCards` handler: the defender opens the throw-in window; the
rank set and the capacity are frozen from the battlefield and the defender's
current hand size.  (Deadline and timer bookkeeping are not modelled; the
timer's callback is `throwInTimerFire`.) -/
def takeCards (room : Room) (senderId : String) : Except Unit (Room × List Emit) :=
  if room.gameState != "playing" then .ok (room, [])
  else if room.currentDefenderId != some senderId then .ok (room, [])
  else
    match findPlayer room senderId with
    | none => .error ()
    | some defender =>
      let room1 : Room :=
        { room with
          maxThrowInTotal := min MAX_BATTLEFIELD_SIZE defender.hand.length,
          validThrowInRanks := battlefieldRanks room.battlefield,
          gamePhase := "throwIn",
          throwInCards := [] }
      .ok (room1, [Emit.event "throwInPhase"])

/-- The `finishThrowIn` handler: the initial attacker ends the throw-in
window early; the settlement is the same `completeTakeCards`. -/
def finishThrowIn (room : Room) (senderId : String) : Except Unit (Room × List Emit) :=
  if room.gameState != "playing" then .ok (room, [])
  else if room.initialAttackerId != some senderId || room.gamePhase != "throwIn" then .ok (room, [])
  else completeTakeCards room

/-- The body of the throw-in timer callback installed by `takeCards`: it
invokes the same settlement as `finishThrowIn`. -/
def throwInTimerFire (room : Room) : Except Unit (Room × List Emit) :=
  completeTakeCards room

/-- The `endAttack` handler: the initial attacker settles a successful
defense while the phase is `attacking`, or once every battlefield pair is
defended. -/
def endAttack (room : Room) (senderId : String) : Room × List Emit :=
  if room.gameState != "playing" then (room, [])
  else if room.initialAttackerId != some senderId then (room, [])
  else if room.gamePhase == "attacking" ||
      (room.battlefield.length > 0 && room.battlefield.all (fun pr => pr.defense.isSome)) then
    completeSuccessfulDefense room
  else (room, [])


/-! ## Basic lemmas about the JavaScript array helpers -/

theorem popLast?_eq_none {α : Type} {l : List α} : popLast? l = none ↔ l = [] := by
  induction l with
  | nil => simp [popLast?]
  | cons a rest ih =>
    simp only [popLast?]
    cases h : popLast? rest <;> simp

theorem popLast?_spec {α : Type} {l front : List α} {c : α}
    (h : popLast? l = some (front, c)) : l = front ++ [c] := by
  induction l generalizing front c with
  | nil => simp [popLast?] at h
  | cons a rest ih =>
    simp only [popLast?] at h
    cases hr : popLast? rest with
    | none =>
      rw [hr] at h
      have hre : rest = [] := popLast?_eq_none.mp hr
      simp only [Option.some.injEq, Prod.mk.injEq] at h
      subst hre
      simp [← h.1, ← h.2]
    | some fc =>
      obtain ⟨f1, c1⟩ := fc
      rw [hr] at h
      simp only [Option.some.injEq, Prod.mk.injEq] at h
      obtain ⟨h1, h2⟩ := h
      subst h2
      have hrec := ih hr
      rw [← h1]
      simp [hrec]

theorem jsSpliceRemove1_eq_eraseIdx {α : Type} (l : List α) (i : Int) (h : 0 ≤ i) :
    jsSpliceRemove1 l i = l.eraseIdx i.toNat := by
  unfold jsSpliceRemove1
  have h1 : ¬ (i < 0) := by omega
  simp only [h1, if_false]
  rcases le_or_lt (l.length : Int) i with hle | hlt
  · have hmin : (min i (l.length : Int)).toNat = l.length := by omega
    rw [hmin]
    rw [List.eraseIdx_of_length_le (by omega)]
    simp [List.drop_eq_nil_of_le]
  · have hmin : (min i (l.length : Int)).toNat = i.toNat := by omega
    rw [hmin, List.eraseIdx_eq_take_drop_succ]

theorem jsIndex_bounds {α : Type} {l : List α} {i : Int} {c : α}
    (h : jsIndex l i = some c) : 0 ≤ i ∧ i.toNat < l.length ∧ l.get? i.toNat = some c := by
  unfold jsIndex at h
  by_cases h0 : i < 0
  · simp [h0] at h
  · simp only [h0, if_false] at h
    exact ⟨by omega, (List.get?_eq_some.mp h).1, h⟩

theorem length_jsSpliceRemove1 {α : Type} {l : List α} {i : Int} {c : α}
    (h : jsIndex l i = some c) : (jsSpliceRemove1 l i).length + 1 = l.length := by
  obtain ⟨h0, hlt, _⟩ := jsIndex_bounds h
  rw [jsSpliceRemove1_eq_eraseIdx l i h0]
  exact List.length_eraseIdx_add_one hlt

/-! ## Lemmas about updating the first matching player -/

/-- The projection of a player record that the seating and role logic
reads: id, seat position and the two activity flags. -/
def roleView (p : Player) : String × Nat × Bool × Bool := (p.id, p.position, p.isActive, p.hasWon)

theorem find?_cons_eq {α : Type} (pred : α → Bool) (a : α) (l : List α) :
    List.find? pred (a :: l) = if pred a = true then some a else List.find? pred l := by
  cases h : pred a <;> simp [List.find?, h]

theorem updateFirst_cons_pos {a : Player} {rest : List Player} {pid : String} {f : Player → Player}
    (h : (a.id == pid) = true) : updateFirst (a :: rest) pid f = f a :: rest := by
  simp [updateFirst, h]

theorem updateFirst_cons_neg {a : Player} {rest : List Player} {pid : String} {f : Player → Player}
    (h : (a.id == pid) = false) : updateFirst (a :: rest) pid f = a :: updateFirst rest pid f := by
  simp [updateFirst, h]

theorem updateFirst_of_not_found {ps : List Player} {pid : String} {f : Player → Player}
    (h : ps.find? (fun p => p.id == pid) = none) : updateFirst ps pid f = ps := by
  induction ps with
  | nil => rfl
  | cons p rest ih =>
    rw [find?_cons_eq] at h
    cases hp : (p.id == pid) with
    | true => simp [hp] at h
    | false =>
      simp only [hp, Bool.false_eq_true, if_false] at h
      rw [updateFirst_cons_neg hp, ih h]

theorem find?_updateFirst_self {ps : List Player} {pid : String} {f : Player → Player} {p : Player}
    (h : ps.find? (fun q => q.id == pid) = some p) (hf : ∀ q, (f q).id = q.id) :
    (updateFirst ps pid f).find? (fun q => q.id == pid) = some (f p) := by
  induction ps with
  | nil => simp [List.find?] at h
  | cons a rest ih =>
    rw [find?_cons_eq] at h
    cases ha : (a.id == pid) with
    | true =>
      simp only [ha, if_true, Option.some.injEq] at h
      subst h
      rw [updateFirst_cons_pos ha, find?_cons_eq]
      have hfa : ((f a).id == pid) = true := by rw [hf a]; exact ha
      simp [hfa]
    | false =>
      simp only [ha, Bool.false_eq_true, if_false] at h
      rw [updateFirst_cons_neg ha, find?_cons_eq]
      simp only [ha, Bool.false_eq_true, if_false]
      exact ih h

theorem find?_updateFirst_ne {ps : List Player} {pid qid : String} {f : Player → Player}
    (hf : ∀ q, (f q).id = q.id) (hne : qid ≠ pid) :
    (updateFirst ps pid f).find? (fun q => q.id == qid) = ps.find? (fun q => q.id == qid) := by
  induction ps with
  | nil => rfl
  | cons a rest ih =>
    cases ha : (a.id == pid) with
    | true =>
      rw [updateFirst_cons_pos ha]
      have haq : (a.id == qid) = false := by
        have h1 : a.id = pid := by simpa using ha
        simp [h1]
        exact Ne.symm hne
      have hfq : ((f a).id == qid) = false := by rw [hf a]; exact haq
      rw [find?_cons_eq, find?_cons_eq]
      simp [haq, hfq]
    | false =>
      rw [updateFirst_cons_neg ha, find?_cons_eq, find?_cons_eq]
      cases haq : (a.id == qid) with
      | true => simp [haq]
      | false =>
        simp only [haq, Bool.false_eq_true, if_false]
        exact ih

theorem handsTotal_updateFirst {ps : List Player} {pid : String} {f : Player → Player} {p : Player}
    (h : ps.find? (fun q => q.id == pid) = some p) :
    handsTotal (updateFirst ps pid f) + p.hand.length = handsTotal ps + (f p).hand.length := by
  induction ps with
  | nil => simp [List.find?] at h
  | cons a rest ih =>
    rw [find?_cons_eq] at h
    cases ha : (a.id == pid) with
    | true =>
      simp only [ha, if_true, Option.some.injEq] at h
      subst h
      rw [updateFirst_cons_pos ha]
      simp only [handsTotal, List.map_cons, List.sum_cons]
      omega
    | false =>
      simp only [ha, Bool.false_eq_true, if_false] at h
      rw [updateFirst_cons_neg ha]
      simp only [handsTotal, List.map_cons, List.sum_cons]
      have := ih h
      simp only [handsTotal] at this
      omega

theorem map_hand_find?_updateFirst {ps : List Player} {pid qid : String} {f : Player → Player}
    (hid : ∀ q, (f q).id = q.id) (hhand : ∀ q, (f q).hand = q.hand) :
    ((updateFirst ps pid f).find? (fun q => q.id == qid)).map (fun q => q.hand)
      = (ps.find? (fun q => q.id == qid)).map (fun q => q.hand) := by
  induction ps with
  | nil => rfl
  | cons a rest ih =>
    cases ha : (a.id == pid) with
    | true =>
      rw [updateFirst_cons_pos ha, find?_cons_eq, find?_cons_eq]
      cases haq : (a.id == qid) with
      | true =>
        have hfq : ((f a).id == qid) = true := by rw [hid a]; exact haq
        simp [haq, hfq, hhand a]
      | false =>
        have hfq : ((f a).id == qid) = false := by rw [hid a]; exact haq
        simp [haq, hfq]
    | false =>
      rw [updateFirst_cons_neg ha, find?_cons_eq, find?_cons_eq]
      cases haq : (a.id == qid) with
      | true => simp [haq]
      | false =>
        simp only [haq, Bool.false_eq_true, if_false]
        exact ih

theorem find?_congr_of_map {β : Type} {g : Player → β} {ps ps' : List Player}
    (hmap : ps.map g = ps'.map g) (pred : β → Bool) :
    (ps.find? (fun p => pred (g p))).map g = (ps'.find? (fun p => pred (g p))).map g := by
  induction ps generalizing ps' with
  | nil =>
    cases ps' with
    | nil => rfl
    | cons b rest' => simp at hmap
  | cons a rest ih =>
    cases ps' with
    | nil => simp at hmap
    | cons b rest' =>
      simp only [List.map_cons, List.cons.injEq] at hmap
      obtain ⟨hab, hrest⟩ := hmap
      rw [find?_cons_eq, find?_cons_eq]
      cases hpa : pred (g a) with
      | true =>
        have hpb : pred (g b) = true := by rw [← hab]; exact hpa
        simp [hpa, hpb, hab]
      | false =>
        have hpb : pred (g b) = false := by rw [← hab]; exact hpa
        simp only [hpa, hpb, Bool.false_eq_true, if_false]
        exact ih hrest

/-! ## Lemmas about the drawing loops -/

theorem drawLoop_length (ts : String) (fuel : Nat) (d h : List Card) :
    (drawLoop ts fuel d h).1.length + (drawLoop ts fuel d h).2.length = d.length + h.length := by
  induction fuel generalizing d h with
  | zero => rfl
  | succ n ih =>
    simp only [drawLoop]
    by_cases hl : h.length < INITIAL_HAND_SIZE
    · simp only [hl, if_true]
      cases hp : popLast? d with
      | none => rfl
      | some fc =>
        obtain ⟨front, c⟩ := fc
        have hd : d = front ++ [c] := popLast?_spec hp
        dsimp only
        rw [ih front (h ++ [markTrump ts c])]
        subst hd
        simp only [List.length_append, List.length_cons, List.length_nil]
        omega
    · simp only [hl, if_false]

theorem drawLoop_deck_split (ts : String) (fuel : Nat) (d h : List Card) :
    ∃ t, d = (drawLoop ts fuel d h).1 ++ t := by
  induction fuel generalizing d h with
  | zero => exact ⟨[], by simp [drawLoop]⟩
  | succ n ih =>
    simp only [drawLoop]
    by_cases hl : h.length < INITIAL_HAND_SIZE
    · simp only [hl, if_true]
      cases hp : popLast? d with
      | none => exact ⟨[], by simp⟩
      | some fc =>
        obtain ⟨front, c⟩ := fc
        have hd : d = front ++ [c] := popLast?_spec hp
        dsimp only
        obtain ⟨t, ht⟩ := ih front (h ++ [markTrump ts c])
        exact ⟨t ++ [c], by rw [← List.append_assoc, ← ht, ← hd]⟩
    · simp only [hl, if_false]
      exact ⟨[], by simp⟩

theorem drawLoop_refill (ts : String) (fuel : Nat) (d h : List Card)
    (hne : (drawLoop ts fuel d h).1 ≠ []) :
    min INITIAL_HAND_SIZE (h.length + fuel) ≤ (drawLoop ts fuel d h).2.length := by
  induction fuel generalizing d h with
  | zero =>
    simp only [drawLoop]
    omega
  | succ n ih =>
    simp only [drawLoop] at hne ⊢
    by_cases hl : h.length < INITIAL_HAND_SIZE
    · simp only [hl, if_true] at hne ⊢
      cases hp : popLast? d with
      | none =>
        rw [hp] at hne
        dsimp only at hne
        have : d = [] := popLast?_eq_none.mp hp
        exact absurd this hne
      | some fc =>
        obtain ⟨front, c⟩ := fc
        rw [hp] at hne
        dsimp only at hne ⊢
        have := ih front (h ++ [markTrump ts c]) hne
        simp only [List.length_append, List.length_cons, List.length_nil] at this ⊢
        omega
    · simp only [hl, if_false] at hne ⊢
      omega

theorem drawHand_length (ts : String) (d h : List Card) :
    (drawHand ts d h).1.length + (drawHand ts d h).2.length = d.length + h.length :=
  drawLoop_length ts INITIAL_HAND_SIZE d h

theorem drawHand_deck_split (ts : String) (d h : List Card) :
    ∃ t, d = (drawHand ts d h).1 ++ t :=
  drawLoop_deck_split ts INITIAL_HAND_SIZE d h

theorem drawHand_refill (ts : String) (d h : List Card)
    (hne : (drawHand ts d h).1 ≠ []) :
    INITIAL_HAND_SIZE ≤ (drawHand ts d h).2.length := by
  have h1 := drawLoop_refill ts INITIAL_HAND_SIZE d h hne
  have hmin : min INITIAL_HAND_SIZE (h.length + INITIAL_HAND_SIZE) = INITIAL_HAND_SIZE := by
    omega
  rw [hmin] at h1
  exact h1

/-! ## Lemmas about the per-player refill loops -/


theorem handsTotal_cons (p : Player) (ps : List Player) :
    handsTotal (p :: ps) = p.hand.length + handsTotal ps := by
  simp [handsTotal]

theorem drawFirstMatch_cons_pos {ts pid : String} {d : List Card} {p : Player} {rest : List Player}
    (h : (p.id == pid) = true) :
    drawFirstMatch ts pid d (p :: rest)
      = ((drawHand ts d p.hand).1, { p with hand := (drawHand ts d p.hand).2 } :: rest) := by
  simp [drawFirstMatch, h]

theorem drawFirstMatch_cons_neg {ts pid : String} {d : List Card} {p : Player} {rest : List Player}
    (h : (p.id == pid) = false) :
    drawFirstMatch ts pid d (p :: rest)
      = ((drawFirstMatch ts pid d rest).1, p :: (drawFirstMatch ts pid d rest).2) := by
  simp [drawFirstMatch, h]

theorem drawSlots_cons_pos {ts : String} {cond : Player → Bool} {d : List Card} {p : Player}
    {rest : List Player} (h : cond p = true) :
    drawSlots ts cond d (p :: rest)
      = ((drawSlots ts cond (drawHand ts d p.hand).1 rest).1,
          { p with hand := (drawHand ts d p.hand).2 } ::
            (drawSlots ts cond (drawHand ts d p.hand).1 rest).2) := by
  simp [drawSlots, h]

theorem drawSlots_cons_neg {ts : String} {cond : Player → Bool} {d : List Card} {p : Player}
    {rest : List Player} (h : cond p = false) :
    drawSlots ts cond d (p :: rest)
      = ((drawSlots ts cond d rest).1, p :: (drawSlots ts cond d rest).2) := by
  simp [drawSlots, h]

theorem drawFirstMatch_length (ts pid : String) (d : List Card) (ps : List Player) :
    (drawFirstMatch ts pid d ps).1.length + handsTotal (drawFirstMatch ts pid d ps).2
      = d.length + handsTotal ps := by
  induction ps generalizing d with
  | nil => simp [drawFirstMatch, handsTotal]
  | cons p rest ih =>
    cases hp : (p.id == pid) with
    | true =>
      rw [drawFirstMatch_cons_pos hp]
      have := drawHand_length ts d p.hand
      simp only [handsTotal_cons]
      omega
    | false =>
      rw [drawFirstMatch_cons_neg hp]
      simp only [handsTotal_cons]
      have := ih d
      omega

theorem drawFirstMatch_deck_split (ts pid : String) (d : List Card) (ps : List Player) :
    ∃ t, d = (drawFirstMatch ts pid d ps).1 ++ t := by
  induction ps generalizing d with
  | nil => exact ⟨[], by simp [drawFirstMatch]⟩
  | cons p rest ih =>
    cases hp : (p.id == pid) with
    | true =>
      rw [drawFirstMatch_cons_pos hp]
      exact drawHand_deck_split ts d p.hand
    | false =>
      rw [drawFirstMatch_cons_neg hp]
      exact ih d

theorem roleView_drawFirstMatch (ts pid : String) (d : List Card) (ps : List Player) :
    ((drawFirstMatch ts pid d ps).2).map roleView = ps.map roleView := by
  induction ps generalizing d with
  | nil => simp [drawFirstMatch]
  | cons p rest ih =>
    cases hp : (p.id == pid) with
    | true =>
      rw [drawFirstMatch_cons_pos hp]
      simp [roleView]
    | false =>
      rw [drawFirstMatch_cons_neg hp]
      simp [ih d]

theorem drawFirstMatch_not_found {ts pid : String} {d : List Card} {ps : List Player}
    (h : ps.find? (fun p => p.id == pid) = none) :
    drawFirstMatch ts pid d ps = (d, ps) := by
  induction ps generalizing d with
  | nil => rfl
  | cons p rest ih =>
    rw [find?_cons_eq] at h
    cases hp : (p.id == pid) with
    | true => simp [hp] at h
    | false =>
      simp only [hp, Bool.false_eq_true, if_false] at h
      rw [drawFirstMatch_cons_neg hp, ih h]

theorem drawFirstMatch_found {ts pid : String} {d : List Card} {ps : List Player} {p : Player}
    (h : ps.find? (fun q => q.id == pid) = some p) :
    (drawFirstMatch ts pid d ps).1 = (drawHand ts d p.hand).1 ∧
      ((drawFirstMatch ts pid d ps).2).find? (fun q => q.id == pid)
        = some { p with hand := (drawHand ts d p.hand).2 } := by
  induction ps generalizing d with
  | nil => simp [List.find?] at h
  | cons a rest ih =>
    rw [find?_cons_eq] at h
    cases ha : (a.id == pid) with
    | true =>
      simp only [ha, if_true, Option.some.injEq] at h
      subst h
      rw [drawFirstMatch_cons_pos ha]
      constructor
      · rfl
      · rw [find?_cons_eq]
        simp [ha]
    | false =>
      simp only [ha, Bool.false_eq_true, if_false] at h
      rw [drawFirstMatch_cons_neg ha]
      constructor
      · exact (ih h).1
      · rw [find?_cons_eq]
        simp only [ha, Bool.false_eq_true, if_false]
        exact (ih h).2

theorem find?_drawFirstMatch_ne {ts pid qid : String} {d : List Card} {ps : List Player}
    (hne : qid ≠ pid) :
    ((drawFirstMatch ts pid d ps).2).find? (fun q => q.id == qid)
      = ps.find? (fun q => q.id == qid) := by
  induction ps generalizing d with
  | nil => rfl
  | cons a rest ih =>
    cases ha : (a.id == pid) with
    | true =>
      rw [drawFirstMatch_cons_pos ha]
      have haq : (a.id == qid) = false := by
        have h1 : a.id = pid := by simpa using ha
        simp [h1]
        exact Ne.symm hne
      rw [find?_cons_eq, find?_cons_eq]
      simp only [haq, Bool.false_eq_true, if_false]
    | false =>
      rw [drawFirstMatch_cons_neg ha, find?_cons_eq, find?_cons_eq]
      cases haq : (a.id == qid) with
      | true => simp [haq]
      | false =>
        simp only [haq, Bool.false_eq_true, if_false]
        exact ih

theorem drawSlots_length (ts : String) (cond : Player → Bool) (d : List Card) (ps : List Player) :
    (drawSlots ts cond d ps).1.length + handsTotal (drawSlots ts cond d ps).2
      = d.length + handsTotal ps := by
  induction ps generalizing d with
  | nil => simp [drawSlots, handsTotal]
  | cons p rest ih =>
    cases hp : cond p with
    | true =>
      rw [drawSlots_cons_pos hp]
      simp only [handsTotal_cons]
      have h1 := drawHand_length ts d p.hand
      have h2 := ih (drawHand ts d p.hand).1
      omega
    | false =>
      rw [drawSlots_cons_neg hp]
      simp only [handsTotal_cons]
      have h2 := ih d
      omega

theorem drawSlots_deck_split (ts : String) (cond : Player → Bool) (d : List Card) (ps : List Player) :
    ∃ t, d = (drawSlots ts cond d ps).1 ++ t := by
  induction ps generalizing d with
  | nil => exact ⟨[], by simp [drawSlots]⟩
  | cons p rest ih =>
    cases hp : cond p with
    | true =>
      rw [drawSlots_cons_pos hp]
      obtain ⟨t1, ht1⟩ := drawHand_deck_split ts d p.hand
      obtain ⟨t2, ht2⟩ := ih (drawHand ts d p.hand).1
      exact ⟨t2 ++ t1, by rw [← List.append_assoc, ← ht2, ← ht1]⟩
    | false =>
      rw [drawSlots_cons_neg hp]
      exact ih d

theorem roleView_drawSlots (ts : String) (cond : Player → Bool) (d : List Card) (ps : List Player) :
    ((drawSlots ts cond d ps).2).map roleView = ps.map roleView := by
  induction ps generalizing d with
  | nil => simp [drawSlots]
  | cons p rest ih =>
    cases hp : cond p with
    | true =>
      rw [drawSlots_cons_pos hp]
      simp [roleView, ih]
    | false =>
      rw [drawSlots_cons_neg hp]
      simp [ih d]

theorem find?_drawSlots_of_cond_false {ts pid : String} {cond : Player → Bool}
    (hc : ∀ q : Player, q.id = pid → cond q = false) (d : List Card) (ps : List Player) :
    ((drawSlots ts cond d ps).2).find? (fun q => q.id == pid)
      = ps.find? (fun q => q.id == pid) := by
  induction ps generalizing d with
  | nil => rfl
  | cons p rest ih =>
    cases hp : cond p with
    | true =>
      rw [drawSlots_cons_pos hp]
      have hpid : (p.id == pid) = false := by
        cases hq : (p.id == pid) with
        | true =>
          have h1 : p.id = pid := by simpa using hq
          rw [hc p h1] at hp
          exact absurd hp (by simp)
        | false => rfl
      rw [find?_cons_eq, find?_cons_eq]
      simp only [hpid, Bool.false_eq_true, if_false]
      exact ih (drawHand ts d p.hand).1
    | false =>
      rw [drawSlots_cons_neg hp, find?_cons_eq, find?_cons_eq]
      cases hq : (p.id == pid) with
      | true => simp [hq]
      | false =>
        simp only [hq, Bool.false_eq_true, if_false]
        exact ih d

theorem drawSlots_refill {ts : String} {cond : Player → Bool} {d : List Card} {ps : List Player}
    (hne : (drawSlots ts cond d ps).1 ≠ []) :
    ∀ p' ∈ (drawSlots ts cond d ps).2,
      (p' ∈ ps ∧ cond p' = false) ∨ INITIAL_HAND_SIZE ≤ p'.hand.length := by
  induction ps generalizing d with
  | nil => simp [drawSlots]
  | cons p rest ih =>
    cases hp : cond p with
    | true =>
      rw [drawSlots_cons_pos hp] at hne ⊢
      intro p' hp'
      simp only [List.mem_cons] at hp'
      cases hp' with
      | inl heq =>
        subst heq
        right
        obtain ⟨t2, ht2⟩ := drawSlots_deck_split ts cond (drawHand ts d p.hand).1 rest
        have hd1 : (drawHand ts d p.hand).1 ≠ [] := by
          intro hnil
          rw [hnil] at ht2 hne
          have h0 := List.append_eq_nil.mp ht2.symm
          exact hne h0.1
        have := drawHand_refill ts d p.hand hd1
        simpa using this
      | inr hmem =>
        rcases ih hne p' hmem with ⟨hm, hcf⟩ | hlen
        · exact Or.inl ⟨List.mem_cons_of_mem p hm, hcf⟩
        · exact Or.inr hlen
    | false =>
      rw [drawSlots_cons_neg hp] at hne ⊢
      intro p' hp'
      simp only [List.mem_cons] at hp'
      cases hp' with
      | inl heq =>
        subst heq
        exact Or.inl ⟨List.mem_cons_self _ _, hp⟩
      | inr hmem =>
        rcases ih hne p' hmem with ⟨hm, hcf⟩ | hlen
        · exact Or.inl ⟨List.mem_cons_of_mem p hm, hcf⟩
        · exact Or.inr hlen

/-! ## Congruence of the seating scan under hand changes -/


theorem findByPosition_congr {ps ps' : List Player} (hmap : ps.map roleView = ps'.map roleView)
    (pos : Nat) :
    (findByPosition ps pos).map roleView = (findByPosition ps' pos).map roleView := by
  have := find?_congr_of_map hmap (fun v => v.2.1 == pos)
  simpa [findByPosition, roleView] using this

theorem scanNext_congr {ps ps' : List Player} (hmap : ps.map roleView = ps'.map roleView) :
    ∀ fuel pos, (scanNext ps pos fuel).map roleView = (scanNext ps' pos fuel).map roleView := by
  have hlen : ps.length = ps'.length := by
    have := congrArg List.length hmap
    simpa using this
  intro fuel
  induction fuel with
  | zero => intro pos; rfl
  | succ n ih =>
    intro pos
    simp only [scanNext]
    have hfb := findByPosition_congr hmap pos
    cases hb : findByPosition ps pos with
    | none =>
      cases hb' : findByPosition ps' pos with
      | none =>
        rw [hlen]
        exact ih ((pos + 1) % ps'.length)
      | some q =>
        rw [hb, hb'] at hfb
        simp at hfb
    | some p =>
      cases hb' : findByPosition ps' pos with
      | none =>
        rw [hb, hb'] at hfb
        simp at hfb
      | some q =>
        rw [hb, hb'] at hfb
        simp only [Option.map_some'] at hfb
        have hact : p.isActive = q.isActive ∧ p.hasWon = q.hasWon := by
          simp only [Option.some.injEq, roleView, Prod.mk.injEq] at hfb
          exact ⟨hfb.2.2.1, hfb.2.2.2⟩
        by_cases ha : (p.isActive && !p.hasWon) = true
        · have ha' : (q.isActive && !q.hasWon) = true := by
            rw [← hact.1, ← hact.2]
            exact ha
          simp only [ha, ha', if_true, Option.map_some']
          exact hfb
        · have ha' : (q.isActive && !q.hasWon) = false := by
            cases hqa : (q.isActive && !q.hasWon) with
            | false => rfl
            | true =>
              rw [← hact.1, ← hact.2] at hqa
              exact absurd hqa ha
          have ha2 : (p.isActive && !p.hasWon) = false := by
            cases hpa : (p.isActive && !p.hasWon) with
            | false => rfl
            | true => exact absurd hpa ha
          simp only [ha2, ha', Bool.false_eq_true, if_false]
          rw [hlen]
          exact ih ((pos + 1) % ps'.length)

theorem getNextActivePlayer_congr {r r' : Room} (hmap : r.players.map roleView = r'.players.map roleView)
    (pid : String) :
    (getNextActivePlayer r pid).map roleView = (getNextActivePlayer r' pid).map roleView := by
  have hlen : r.players.length = r'.players.length := by
    have := congrArg List.length hmap
    simpa using this
  unfold getNextActivePlayer
  have hfind := find?_congr_of_map hmap (fun v => v.1 == pid)
  have hfind2 : (r.players.find? (fun p => p.id == pid)).map roleView
      = (r'.players.find? (fun p => p.id == pid)).map roleView := by
    simpa [roleView] using hfind
  cases hb : r.players.find? (fun p => p.id == pid) with
  | none =>
    cases hb' : r'.players.find? (fun p => p.id == pid) with
    | none => rfl
    | some q =>
      rw [hb, hb'] at hfind2
      simp at hfind2
  | some p =>
    cases hb' : r'.players.find? (fun p => p.id == pid) with
    | none =>
      rw [hb, hb'] at hfind2
      simp at hfind2
    | some q =>
      rw [hb, hb'] at hfind2
      simp only [Option.map_some'] at hfind2
      have hpos : p.position = q.position := by
        simp only [Option.some.injEq, roleView, Prod.mk.injEq] at hfind2
        exact hfind2.2.1
      dsimp only
      rw [hpos, hlen]
      exact scanNext_congr hmap r'.players.length ((q.position + 1) % r'.players.length)

/-! ## Preservation lemmas for winner and game-end checks -/


theorem handsTotal_updateFirst_handpreserving {ps : List Player} {pid : String} {f : Player → Player}
    (hhand : ∀ q, (f q).hand = q.hand) :
    handsTotal (updateFirst ps pid f) = handsTotal ps := by
  induction ps with
  | nil => rfl
  | cons p rest ih =>
    cases hp : (p.id == pid) with
    | true =>
      rw [updateFirst_cons_pos hp]
      simp [handsTotal, hhand p]
    | false =>
      rw [updateFirst_cons_neg hp]
      simp [handsTotal] at ih ⊢
      omega

theorem winnerRoleFix_preserves (r1 : Room) (b1 b2 : Bool) (pid : String) :
    (winnerRoleFix r1 b1 b2 pid).players = r1.players ∧
    (winnerRoleFix r1 b1 b2 pid).battlefield = r1.battlefield ∧
    (winnerRoleFix r1 b1 b2 pid).gamePhase = r1.gamePhase ∧
    (winnerRoleFix r1 b1 b2 pid).deck = r1.deck ∧
    (winnerRoleFix r1 b1 b2 pid).throwInCards = r1.throwInCards ∧
    (winnerRoleFix r1 b1 b2 pid).gameState = r1.gameState ∧
    (winnerRoleFix r1 b1 b2 pid).validThrowInRanks = r1.validThrowInRanks ∧
    (winnerRoleFix r1 b1 b2 pid).maxThrowInTotal = r1.maxThrowInTotal := by
  unfold winnerRoleFix
  split
  · split <;> exact ⟨rfl, rfl, rfl, rfl, rfl, rfl, rfl, rfl⟩
  · split
    · split <;> exact ⟨rfl, rfl, rfl, rfl, rfl, rfl, rfl, rfl⟩
    · exact ⟨rfl, rfl, rfl, rfl, rfl, rfl, rfl, rfl⟩

theorem checkForWinner_preserves (r : Room) (pid : String) :
    (checkForWinner r pid).1.battlefield = r.battlefield ∧
    (checkForWinner r pid).1.gamePhase = r.gamePhase ∧
    (checkForWinner r pid).1.deck = r.deck ∧
    (checkForWinner r pid).1.throwInCards = r.throwInCards ∧
    (checkForWinner r pid).1.gameState = r.gameState ∧
    (checkForWinner r pid).1.validThrowInRanks = r.validThrowInRanks ∧
    (checkForWinner r pid).1.maxThrowInTotal = r.maxThrowInTotal := by
  unfold checkForWinner
  cases findPlayer r pid with
  | none => exact ⟨rfl, rfl, rfl, rfl, rfl, rfl, rfl⟩
  | some p =>
    by_cases hw : (p.hand.length == 0 && r.deck.length == 0) = true
    · simp only [hw, if_true]
      have h := winnerRoleFix_preserves
        { r with
          players := updateFirst r.players pid (fun q => { q with hasWon := true, isActive := false }),
          winners := r.winners ++ [Winner.mk p.id p.name (r.winners.length + 1)] }
        (r.currentDefenderId == some pid) (r.initialAttackerId == some pid) pid
      exact ⟨h.2.1, h.2.2.1, h.2.2.2.1, h.2.2.2.2.1, h.2.2.2.2.2.1, h.2.2.2.2.2.2.1,
        h.2.2.2.2.2.2.2⟩
    · simp [hw]

theorem handsTotal_checkForWinner (r : Room) (pid : String) :
    handsTotal (checkForWinner r pid).1.players = handsTotal r.players := by
  unfold checkForWinner
  cases findPlayer r pid with
  | none => rfl
  | some p =>
    by_cases hw : (p.hand.length == 0 && r.deck.length == 0) = true
    · simp only [hw, if_true]
      have hht : handsTotal (updateFirst r.players pid
          (fun q => { q with hasWon := true, isActive := false })) = handsTotal r.players :=
        handsTotal_updateFirst_handpreserving (fun q => rfl)
      have h := (winnerRoleFix_preserves
        { r with
          players := updateFirst r.players pid (fun q => { q with hasWon := true, isActive := false }),
          winners := r.winners ++ [Winner.mk p.id p.name (r.winners.length + 1)] }
        (r.currentDefenderId == some pid) (r.initialAttackerId == some pid) pid).1
      show handsTotal (updatePlayerOrder _).players = handsTotal r.players
      simp only [updatePlayerOrder]
      rw [h]
      exact hht
    · simp only [hw, Bool.false_eq_true, if_false]

theorem totalCards_checkForWinner (r : Room) (pid : String) :
    totalCards (checkForWinner r pid).1 = totalCards r := by
  have h := checkForWinner_preserves r pid
  have hh := handsTotal_checkForWinner r pid
  unfold totalCards
  rw [h.1, h.2.2.1, h.2.2.2.1, hh]

theorem map_hand_checkForWinner (r : Room) (pid qid : String) :
    ((checkForWinner r pid).1.players.find? (fun q => q.id == qid)).map (fun q => q.hand)
      = (r.players.find? (fun q => q.id == qid)).map (fun q => q.hand) := by
  unfold checkForWinner
  cases findPlayer r pid with
  | none => rfl
  | some p =>
    by_cases hw : (p.hand.length == 0 && r.deck.length == 0) = true
    · simp only [hw, if_true]
      have hm : ((updateFirst r.players pid
            (fun q => { q with hasWon := true, isActive := false })).find?
              (fun q => q.id == qid)).map (fun q => q.hand)
          = (r.players.find? (fun q => q.id == qid)).map (fun q => q.hand) :=
        map_hand_find?_updateFirst (fun q => rfl) (fun q => rfl)
      have h := (winnerRoleFix_preserves
        { r with
          players := updateFirst r.players pid (fun q => { q with hasWon := true, isActive := false }),
          winners := r.winners ++ [Winner.mk p.id p.name (r.winners.length + 1)] }
        (r.currentDefenderId == some pid) (r.initialAttackerId == some pid) pid).1
      show ((updatePlayerOrder _).players.find? _).map _ = _
      simp only [updatePlayerOrder]
      rw [h]
      exact hm
    · simp only [hw, Bool.false_eq_true, if_false]

theorem checkGameEnd_preserves (r : Room) :
    (checkGameEnd r).1.players = r.players ∧
    (checkGameEnd r).1.deck = r.deck ∧
    (checkGameEnd r).1.gamePhase = r.gamePhase ∧
    (checkGameEnd r).1.battlefield = r.battlefield ∧
    (checkGameEnd r).1.throwInCards = r.throwInCards ∧
    (checkGameEnd r).1.initialAttackerId = r.initialAttackerId ∧
    (checkGameEnd r).1.currentDefenderId = r.currentDefenderId ∧
    (checkGameEnd r).1.additionalAttackers = r.additionalAttackers ∧
    (checkGameEnd r).1.maxThrowInTotal = r.maxThrowInTotal ∧
    (checkGameEnd r).1.validThrowInRanks = r.validThrowInRanks := by
  unfold checkGameEnd
  dsimp only
  split
  · split
    · split <;> exact ⟨rfl, rfl, rfl, rfl, rfl, rfl, rfl, rfl, rfl, rfl⟩
    · exact ⟨rfl, rfl, rfl, rfl, rfl, rfl, rfl, rfl, rfl, rfl⟩
  · exact ⟨rfl, rfl, rfl, rfl, rfl, rfl, rfl, rfl, rfl, rfl⟩

theorem totalCards_checkGameEnd (r : Room) :
    totalCards (checkGameEnd r).1 = totalCards r := by
  have h := checkGameEnd_preserves r
  unfold totalCards
  rw [h.1, h.2.1, h.2.2.2.1, h.2.2.2.2.1]

theorem battlefieldCards_length (bf : List BattlefieldPair) :
    (battlefieldCards bf).length = battlefieldCount bf := by
  induction bf with
  | nil => rfl
  | cons pr rest ih =>
    have ih2 : ((rest.map pairCards).flatten).length = battlefieldCount rest := by
      simpa [battlefieldCards] using ih
    have hp : (pairCards pr).length = 1 + (if pr.defense.isSome then 1 else 0) := by
      unfold pairCards
      cases pr.defense <;> simp
    simp only [battlefieldCards, List.map_cons, List.flatten_cons, List.length_append]
    rw [hp, ih2]
    simp only [battlefieldCount, List.map_cons, List.sum_cons]

theorem defendFirst_length (bf : List BattlefieldPair) (c : Card) :
    (defendFirst bf c).length = bf.length := by
  induction bf with
  | nil => rfl
  | cons pr rest ih =>
    simp only [defendFirst]
    cases hd : pr.defense.isNone with
    | true => simp [hd]
    | false => simp [hd, ih]

theorem defendFirst_count {bf : List BattlefieldPair} {c : Card} {pr : BattlefieldPair}
    (h : bf.find? (fun x => x.defense.isNone) = some pr) :
    battlefieldCount (defendFirst bf c) = battlefieldCount bf + 1 := by
  induction bf with
  | nil => simp [List.find?] at h
  | cons a rest ih =>
    rw [find?_cons_eq] at h
    cases ha : a.defense.isNone with
    | true =>
      simp only [defendFirst, ha, if_true]
      simp only [battlefieldCount, List.map_cons, List.sum_cons]
      have : a.defense = none := Option.isNone_iff_eq_none.mp ha
      simp [this]
      omega
    | false =>
      simp only [ha, Bool.false_eq_true, if_false] at h
      simp only [defendFirst, ha, Bool.false_eq_true, if_false]
      simp only [battlefieldCount, List.map_cons, List.sum_cons]
      have := ih h
      simp only [battlefieldCount] at this
      omega

theorem defendFirst_eq_set {bf : List BattlefieldPair} {c : Card} {pr : BattlefieldPair}
    (h : bf.find? (fun x => x.defense.isNone) = some pr) :
    defendFirst bf c
      = bf.set (bf.findIdx (fun x => x.defense.isNone)) { pr with defense := some c } := by
  induction bf with
  | nil => simp [List.find?] at h
  | cons a rest ih =>
    rw [find?_cons_eq] at h
    cases ha : a.defense.isNone with
    | true =>
      simp only [ha, if_true, Option.some.injEq] at h
      subst h
      simp only [defendFirst, ha, if_true]
      rw [List.findIdx_cons]
      simp [ha]
    | false =>
      simp only [ha, Bool.false_eq_true, if_false] at h
      simp only [defendFirst, ha, Bool.false_eq_true, if_false]
      rw [List.findIdx_cons]
      simp only [ha, cond_false]
      rw [List.set_cons_succ]
      rw [ih h]


/-! ## Handler evaluation lemmas and per-claim results (part 1) -/


/-- C2: for every pair of cards, `canDefend d a` returns true exactly when
the defense is a trump against a non-trump, or shares the attack suit with a
strictly greater value; every other combination — trump against trump with a
lower or equal value included — returns false. -/
theorem c2_canDefend_iff (d a : Card) :
    canDefend d a = true ↔
      ((d.isTrump = true ∧ a.isTrump = false) ∨ (d.suit = a.suit ∧ a.value < d.value)) := by
  unfold canDefend
  rcases d with ⟨ds, dr, dv, dt⟩
  rcases a with ⟨s2, r2, v2, t2⟩
  cases dt <;> cases t2 <;> simp

/-- Evaluation of the `playCard` handler in the defender's situation. -/
theorem playCard_defense_eval (room : Room) (senderId : String) (i : Int) (player : Player)
    (c : Card)
    (hgs : room.gameState = "playing")
    (hfind : findPlayer room senderId = some player)
    (hdef : room.currentDefenderId = some senderId)
    (hph : room.gamePhase = "defending")
    (hidx : jsIndex player.hand i = some c) (t : Int) :
    playCard room senderId ⟨i, t⟩ =
      match room.battlefield.find? (fun pr => pr.defense.isNone) with
      | none => .ok (room, [])
      | some undefendedPair =>
        if canDefend c undefendedPair.attack then
          .ok ((checkForWinner
              (if (defendFirst room.battlefield c).all (fun pr => pr.defense.isSome) then
                { room with
                  battlefield := defendFirst room.battlefield c,
                  players := updateFirst room.players senderId
                    (fun q => { q with hand := jsSpliceRemove1 q.hand i }),
                  gamePhase := "attacking" }
              else
                { room with
                  battlefield := defendFirst room.battlefield c,
                  players := updateFirst room.players senderId
                    (fun q => { q with hand := jsSpliceRemove1 q.hand i }) })
              senderId).1,
            [Emit.event "cardPlayed"] ++ (checkForWinner
              (if (defendFirst room.battlefield c).all (fun pr => pr.defense.isSome) then
                { room with
                  battlefield := defendFirst room.battlefield c,
                  players := updateFirst room.players senderId
                    (fun q => { q with hand := jsSpliceRemove1 q.hand i }),
                  gamePhase := "attacking" }
              else
                { room with
                  battlefield := defendFirst room.battlefield c,
                  players := updateFirst room.players senderId
                    (fun q => { q with hand := jsSpliceRemove1 q.hand i }) })
              senderId).2)
        else .ok (room, [Emit.errorMsg "This card cannot defend"]) := by
  obtain ⟨h0i, hlt, hget⟩ := jsIndex_bounds hidx
  unfold playCard
  rw [hgs, hfind]
  have hguard : ¬ ((player.hand.length : Int) ≤ (PlayData.mk i t).cardIndex) := by
    dsimp only
    omega
  have hatk : (("defending" : String) == "attacking") = false := rfl
  have hdefc : (room.currentDefenderId == some senderId) = true := by
    rw [hdef]
    exact beq_self_eq_true _
  have hphc : ((room.gamePhase : String) == "defending") = true := by
    rw [hph]
    exact beq_self_eq_true _
  have hpl : (("playing" : String) != "playing") = false := rfl
  dsimp only
  simp only [hpl, Bool.false_eq_true, if_false]
  rw [if_neg (by omega : ¬ ((player.hand.length : Int) ≤ i))]
  rw [hph]
  simp only [hatk, Bool.and_false, Bool.false_eq_true, if_false]
  rw [hdef]
  simp only [beq_self_eq_true, Bool.and_self, if_true]
  rw [hidx]


/-- C10: a legal defense card played by the current defender always lands on
the earliest undefended battlefield pair; any target index supplied with the
intent is ignored (results for two target indices coincide), and with no
undefended pair left the intent is a silent no-op. -/
theorem c10_defense_first_undefended
    (room : Room) (senderId : String) (i : Int) (player : Player) (c : Card)
    (hgs : room.gameState = "playing")
    (hfind : findPlayer room senderId = some player)
    (hdef : room.currentDefenderId = some senderId)
    (hph : room.gamePhase = "defending")
    (hidx : jsIndex player.hand i = some c) (t : Int) :
    (∀ t₁ t₂ : Int, playCard room senderId ⟨i, t₁⟩ = playCard room senderId ⟨i, t₂⟩) ∧
    (room.battlefield.find? (fun pr => pr.defense.isNone) = none →
      playCard room senderId ⟨i, t⟩ = .ok (room, [])) ∧
    (∀ pr, room.battlefield.find? (fun x => x.defense.isNone) = some pr →
      canDefend c pr.attack = true →
      ∃ r' es, playCard room senderId ⟨i, t⟩ = Except.ok (r', es) ∧
        r'.battlefield = room.battlefield.set
          (room.battlefield.findIdx (fun x => x.defense.isNone)) { pr with defense := some c } ∧
        handOf r' senderId = some (player.hand.eraseIdx i.toNat)) ∧
    (∀ pr, room.battlefield.find? (fun x => x.defense.isNone) = some pr →
      canDefend c pr.attack = false →
      playCard room senderId ⟨i, t⟩ = .ok (room, [Emit.errorMsg "This card cannot defend"])) := by
  obtain ⟨h0i, hlt, hget⟩ := jsIndex_bounds hidx
  refine ⟨?_, ?_, ?_, ?_⟩
  · intro t₁ t₂
    rw [playCard_defense_eval room senderId i player c hgs hfind hdef hph hidx t₁,
      playCard_defense_eval room senderId i player c hgs hfind hdef hph hidx t₂]
  · intro hnone
    rw [playCard_defense_eval room senderId i player c hgs hfind hdef hph hidx t, hnone]
  · intro pr hu hcd
    rw [playCard_defense_eval room senderId i player c hgs hfind hdef hph hidx t, hu]
    simp only [hcd, if_true]
    refine ⟨_, _, rfl, ?_, ?_⟩
    · have hset := defendFirst_eq_set (c := c) hu
      by_cases hall : ((defendFirst room.battlefield c).all fun x => x.defense.isSome) = true
      · simp only [hall, if_true]
        rw [(checkForWinner_preserves _ senderId).1]
        exact hset
      · simp only [hall, Bool.false_eq_true, if_false]
        rw [(checkForWinner_preserves _ senderId).1]
        exact hset
    · have hupd : ∀ (r1 : Room), r1.players = updateFirst room.players senderId
          (fun q => { q with hand := jsSpliceRemove1 q.hand i }) →
          handOf (checkForWinner r1 senderId).1 senderId = some (player.hand.eraseIdx i.toNat) := by
        intro r1 hr1
        unfold handOf findPlayer
        rw [map_hand_checkForWinner]
        rw [hr1]
        have hself := find?_updateFirst_self (f := fun q => { q with hand := jsSpliceRemove1 q.hand i })
          hfind (fun q => rfl)
        rw [hself]
        simp only [Option.map_some']
        rw [jsSpliceRemove1_eq_eraseIdx player.hand i h0i]
      by_cases hall : ((defendFirst room.battlefield c).all fun x => x.defense.isSome) = true
      · simp only [hall, if_true]
        exact hupd _ rfl
      · simp only [hall, Bool.false_eq_true, if_false]
        exact hupd _ rfl
  · intro pr hu hcd
    rw [playCard_defense_eval room senderId i player c hgs hfind hdef hph hidx t, hu]
    simp only [hcd, Bool.false_eq_true, if_false]


/-- Evaluation of the `playCard` handler for an eligible attacker while the
phase is `attacking`. -/
theorem playCard_attack_eval (room : Room) (senderId did : String) (i : Int)
    (player defender : Player) (c : Card)
    (hgs : room.gameState = "playing")
    (hfind : findPlayer room senderId = some player)
    (helig : (room.initialAttackerId == some senderId
      || room.additionalAttackers.contains senderId) = true)
    (hph : room.gamePhase = "attacking")
    (hdid : room.currentDefenderId = some did)
    (hdfind : findPlayer room did = some defender)
    (hidx : jsIndex player.hand i = some c) (t : Int) :
    playCard room senderId ⟨i, t⟩ =
      if min MAX_BATTLEFIELD_SIZE defender.hand.length ≤ room.battlefield.length then
        Except.ok (room, [Emit.errorMsg "Cannot attack with more cards"])
      else if room.battlefield.length > 0 &&
          !((battlefieldRanks room.battlefield).contains c.rank) then
        Except.ok (room, [Emit.errorMsg "Invalid card for attack"])
      else
        Except.ok ((checkForWinner
            { room with
              battlefield := room.battlefield ++ [BattlefieldPair.mk c none senderId],
              players := updateFirst room.players senderId
                (fun q => { q with hand := jsSpliceRemove1 q.hand i }),
              gamePhase := "defending" } senderId).1,
          [Emit.event "cardPlayed"] ++ (checkForWinner
            { room with
              battlefield := room.battlefield ++ [BattlefieldPair.mk c none senderId],
              players := updateFirst room.players senderId
                (fun q => { q with hand := jsSpliceRemove1 q.hand i }),
              gamePhase := "defending" } senderId).2) := by
  obtain ⟨h0i, hlt, hget⟩ := jsIndex_bounds hidx
  unfold playCard
  rw [hgs, hfind]
  have hpl : (("playing" : String) != "playing") = false := rfl
  dsimp only
  simp only [hpl, Bool.false_eq_true, if_false]
  rw [if_neg (by omega : ¬ ((player.hand.length : Int) ≤ i))]
  rw [hph]
  have hph2 : (("attacking" : String) == "attacking") = true := rfl
  simp only [helig, hph2, Bool.and_true, Bool.true_and, if_true]
  rw [hdid]
  dsimp only
  rw [hdfind]
  dsimp only
  rw [hidx]
  by_cases hmax : min MAX_BATTLEFIELD_SIZE defender.hand.length ≤ room.battlefield.length
  · simp only [hmax, if_true, if_pos hmax]
  · simp only [if_neg hmax]
    by_cases hb : room.battlefield.length > 0
    · rw [if_pos hb]
      cases hc : (battlefieldRanks room.battlefield).contains c.rank with
      | true => simp [hc, hb]
      | false => simp [hc, hb]
    · rw [if_neg hb]
      simp [hb]


/-- Evaluation of the `playCard` handler for an eligible attacker during the
throw-in window. -/
theorem playCard_throwIn_eval (room : Room) (senderId : String) (i : Int)
    (player : Player) (c : Card)
    (hgs : room.gameState = "playing")
    (hfind : findPlayer room senderId = some player)
    (helig : (room.initialAttackerId == some senderId
      || room.additionalAttackers.contains senderId) = true)
    (hph : room.gamePhase = "throwIn")
    (hidx : jsIndex player.hand i = some c) (t : Int) :
    playCard room senderId ⟨i, t⟩ =
      if !(room.validThrowInRanks.contains c.rank) then
        Except.ok (room,
          [Emit.errorMsg "You can only throw in cards with ranks that were already played"])
      else if room.maxThrowInTotal ≤ room.battlefield.length + room.throwInCards.length then
        Except.ok (room, [Emit.errorMsg "Cannot add more cards"])
      else
        Except.ok ((checkForWinner
            { room with
              throwInCards := room.throwInCards ++ [ThrowInEntry.mk c senderId],
              players := updateFirst room.players senderId
                (fun q => { q with hand := jsSpliceRemove1 q.hand i }) } senderId).1,
          [Emit.event "throwInCard"] ++ (checkForWinner
            { room with
              throwInCards := room.throwInCards ++ [ThrowInEntry.mk c senderId],
              players := updateFirst room.players senderId
                (fun q => { q with hand := jsSpliceRemove1 q.hand i }) } senderId).2) := by
  obtain ⟨h0i, hlt, hget⟩ := jsIndex_bounds hidx
  unfold playCard
  rw [hgs, hfind]
  have hpl : (("playing" : String) != "playing") = false := rfl
  dsimp only
  simp only [hpl, Bool.false_eq_true, if_false]
  rw [if_neg (by omega : ¬ ((player.hand.length : Int) ≤ i))]
  rw [hph]
  have hp1 : (("throwIn" : String) == "attacking") = false := rfl
  have hp2 : (("throwIn" : String) == "defending") = false := rfl
  have hp3 : (("throwIn" : String) == "throwIn") = true := rfl
  simp only [hp1, hp2, hp3, Bool.and_false, Bool.and_true, Bool.false_eq_true, if_false, helig,
    if_true]
  rw [hidx]

/-- The `playCard` handler ignores an intent from a non-defender while the
phase is `defending`. -/
theorem playCard_noop_defending (room : Room) (senderId : String) (i t : Int)
    (hph : room.gamePhase = "defending")
    (hnd : room.currentDefenderId ≠ some senderId) :
    playCard room senderId ⟨i, t⟩ = .ok (room, []) := by
  unfold playCard
  by_cases hgs : (room.gameState != "playing") = true
  · simp [hgs]
  · simp only [hgs, Bool.false_eq_true, if_false]
    cases hf : findPlayer room senderId with
    | none => rfl
    | some player =>
      dsimp only
      by_cases hg : ((player.hand.length : Int) ≤ i)
      · rw [if_pos hg]
      · rw [if_neg hg]
        have hph1 : (room.gamePhase == "attacking") = false := by rw [hph]; rfl
        have hph3 : (room.gamePhase == "throwIn") = false := by rw [hph]; rfl
        have hnd1 : (room.currentDefenderId == some senderId) = false := by
          exact beq_eq_false_iff_ne.mpr hnd
        simp [hph1, hph3, hnd1]

/-- The `playCard` handler ignores an intent in any phase other than the
three playing phases. -/
theorem playCard_noop_other (room : Room) (senderId : String) (i t : Int)
    (h1 : room.gamePhase ≠ "attacking")
    (h2 : room.gamePhase ≠ "defending")
    (h3 : room.gamePhase ≠ "throwIn") :
    playCard room senderId ⟨i, t⟩ = .ok (room, []) := by
  unfold playCard
  by_cases hgs : (room.gameState != "playing") = true
  · simp [hgs]
  · simp only [hgs, Bool.false_eq_true, if_false]
    cases hf : findPlayer room senderId with
    | none => rfl
    | some player =>
      dsimp only
      by_cases hg : ((player.hand.length : Int) ≤ i)
      · rw [if_pos hg]
      · rw [if_neg hg]
        have hph1 : (room.gamePhase == "attacking") = false := beq_eq_false_iff_ne.mpr h1
        have hph2 : (room.gamePhase == "defending") = false := beq_eq_false_iff_ne.mpr h2
        have hph3 : (room.gamePhase == "throwIn") = false := beq_eq_false_iff_ne.mpr h3
        simp [hph1, hph2, hph3]


/-- C3, amended: an attack by an eligible attacker who holds the indexed
card is accepted if and only if the phase is exactly `attacking` (not
`defending`), the total battlefield length — defended pairs included, not the
undefended count — is below min 6 defenderHandSize, and for a non-empty
battlefield the rank matches an existing attack or defense; on acceptance
the card becomes a new undefended pair and the phase flips to `defending`,
otherwise the battlefield is left unchanged. -/
theorem c3_attack_amended
    (room : Room) (senderId did : String) (i t : Int) (player defender : Player) (c : Card)
    (hgs : room.gameState = "playing")
    (hfind : findPlayer room senderId = some player)
    (helig : (room.initialAttackerId == some senderId
      || room.additionalAttackers.contains senderId) = true)
    (hdid : room.currentDefenderId = some did)
    (hdfind : findPlayer room did = some defender)
    (hnds : did ≠ senderId)
    (hidx : jsIndex player.hand i = some c) :
    ((room.gamePhase = "attacking" ∧
        room.battlefield.length < min MAX_BATTLEFIELD_SIZE defender.hand.length ∧
        (room.battlefield = [] ∨ (battlefieldRanks room.battlefield).contains c.rank = true)) →
      ∃ r' es, playCard room senderId ⟨i, t⟩ = Except.ok (r', es) ∧
        r'.battlefield = room.battlefield ++ [BattlefieldPair.mk c none senderId] ∧
        r'.gamePhase = "defending" ∧
        handOf r' senderId = some (player.hand.eraseIdx i.toNat)) ∧
    (¬ (room.gamePhase = "attacking" ∧
        room.battlefield.length < min MAX_BATTLEFIELD_SIZE defender.hand.length ∧
        (room.battlefield = [] ∨ (battlefieldRanks room.battlefield).contains c.rank = true)) →
      ∃ r' es, playCard room senderId ⟨i, t⟩ = Except.ok (r', es) ∧
        r'.battlefield = room.battlefield) := by
  obtain ⟨h0i, hlt, hget⟩ := jsIndex_bounds hidx
  constructor
  · rintro ⟨hph, hlim, hrank⟩
    rw [playCard_attack_eval room senderId did i player defender c hgs hfind helig hph hdid
      hdfind hidx t]
    rw [if_neg (by omega : ¬ (min MAX_BATTLEFIELD_SIZE defender.hand.length ≤ room.battlefield.length))]
    have hcond2 : (decide (room.battlefield.length > 0) &&
        !(battlefieldRanks room.battlefield).contains c.rank) = false := by
      rcases hrank with hbe | hct
      · simp [hbe]
      · simp only [hct, Bool.not_true, Bool.and_false]
    rw [hcond2]
    simp only [Bool.false_eq_true, if_false]
    refine ⟨_, _, rfl, ?_, ?_, ?_⟩
    · rw [(checkForWinner_preserves _ senderId).1]
    · rw [(checkForWinner_preserves _ senderId).2.1]
    · unfold handOf findPlayer
      rw [map_hand_checkForWinner]
      show ((updateFirst room.players senderId
        (fun q => { q with hand := jsSpliceRemove1 q.hand i })).find?
          (fun q => q.id == senderId)).map (fun q => q.hand) = _
      rw [find?_updateFirst_self (f := fun q => { q with hand := jsSpliceRemove1 q.hand i })
        hfind (fun q => rfl)]
      simp only [Option.map_some']
      rw [jsSpliceRemove1_eq_eraseIdx player.hand i h0i]
  · intro hncond
    by_cases hph : room.gamePhase = "attacking"
    · rw [playCard_attack_eval room senderId did i player defender c hgs hfind helig hph hdid
        hdfind hidx t]
      by_cases hlim : room.battlefield.length < min MAX_BATTLEFIELD_SIZE defender.hand.length
      · have hrank : ¬ (room.battlefield = [] ∨
            (battlefieldRanks room.battlefield).contains c.rank = true) := by
          intro hr
          exact hncond ⟨hph, hlim, hr⟩
        push_neg at hrank
        have hb0 : room.battlefield.length > 0 := by
          cases hbf : room.battlefield with
          | nil => exact absurd hbf hrank.1
          | cons x xs => simp [hbf]
        have hcond2 : (decide (room.battlefield.length > 0) &&
            !(battlefieldRanks room.battlefield).contains c.rank) = true := by
          have hcf : (battlefieldRanks room.battlefield).contains c.rank = false := by
            cases hc : (battlefieldRanks room.battlefield).contains c.rank with
            | true => exact absurd hc hrank.2
            | false => rfl
          rw [hcf]
          simp only [Bool.not_false, Bool.and_true, decide_eq_true_eq]
          exact hb0
        rw [if_neg (by omega : ¬ (min MAX_BATTLEFIELD_SIZE defender.hand.length
          ≤ room.battlefield.length))]
        rw [hcond2]
        simp only [if_true]
        exact ⟨room, _, rfl, rfl⟩
      · rw [if_pos (by omega : min MAX_BATTLEFIELD_SIZE defender.hand.length
          ≤ room.battlefield.length)]
        exact ⟨room, _, rfl, rfl⟩
    · by_cases hph2 : room.gamePhase = "defending"
      · rw [playCard_noop_defending room senderId i t hph2
          (by rw [hdid]; intro hcc; exact hnds (by injection hcc))]
        exact ⟨room, [], rfl, rfl⟩
      · by_cases hph3 : room.gamePhase = "throwIn"
        · rw [playCard_throwIn_eval room senderId i player c hgs hfind helig hph3 hidx t]
          by_cases hv : (room.validThrowInRanks.contains c.rank) = true
          · simp only [hv, Bool.not_true, Bool.false_eq_true, if_false]
            by_cases hcap : room.maxThrowInTotal ≤ room.battlefield.length + room.throwInCards.length
            · rw [if_pos hcap]
              exact ⟨room, _, rfl, rfl⟩
            · rw [if_neg hcap]
              refine ⟨_, _, rfl, ?_⟩
              rw [(checkForWinner_preserves _ senderId).1]
          · have hv' : (room.validThrowInRanks.contains c.rank) = false := by
              cases h : (room.validThrowInRanks.contains c.rank) with
              | true => exact absurd h hv
              | false => rfl
            simp only [hv', Bool.not_false, if_true]
            exact ⟨room, _, rfl, rfl⟩
        · rw [playCard_noop_other room senderId i t hph hph2 hph3]
          exact ⟨room, [], rfl, rfl⟩


/-- Evaluation of the `takeCards` handler for the current defender. -/
theorem takeCards_eval (room : Room) (senderId : String) (defender : Player)
    (hgs : room.gameState = "playing")
    (hdef : room.currentDefenderId = some senderId)
    (hfind : findPlayer room senderId = some defender) :
    takeCards room senderId = Except.ok (
      { room with
        maxThrowInTotal := min MAX_BATTLEFIELD_SIZE defender.hand.length,
        validThrowInRanks := battlefieldRanks room.battlefield,
        gamePhase := "throwIn",
        throwInCards := [] },
      [Emit.event "throwInPhase"]) := by
  unfold takeCards
  rw [hgs, hdef]
  have hpl : (("playing" : String) != "playing") = false := rfl
  have hsd : (some senderId != some senderId) = false := by
    simp
  simp only [hpl, hsd, Bool.false_eq_true, if_false]
  rw [hfind]

/-- C4: invoking take-cards freezes the battlefield rank set and the cap
min 6 defenderHandSize, and during the throw-in phase a card from an eligible
attacker is accepted exactly when its rank is in the frozen set and the
battlefield plus pile size stays below the frozen cap; otherwise the sender
gets an error notice and the room is unchanged. -/
theorem c4_throw_in_window
    (room : Room) (senderId : String) (defender : Player)
    (hgs : room.gameState = "playing")
    (hdef : room.currentDefenderId = some senderId)
    (hfind : findPlayer room senderId = some defender) :
    (∃ r1, takeCards room senderId = Except.ok (r1, [Emit.event "throwInPhase"]) ∧
      r1.maxThrowInTotal = min MAX_BATTLEFIELD_SIZE defender.hand.length ∧
      r1.validThrowInRanks = battlefieldRanks room.battlefield ∧
      r1.gamePhase = "throwIn" ∧ r1.battlefield = room.battlefield ∧
      r1.throwInCards = []) ∧
    (∀ (rt : Room) (tid : String) (i t : Int) (thrower : Player) (c : Card),
      rt.gameState = "playing" →
      rt.gamePhase = "throwIn" →
      findPlayer rt tid = some thrower →
      (rt.initialAttackerId == some tid || rt.additionalAttackers.contains tid) = true →
      jsIndex thrower.hand i = some c →
      ((rt.validThrowInRanks.contains c.rank = true ∧
          rt.battlefield.length + rt.throwInCards.length < rt.maxThrowInTotal) →
        ∃ r2 es, playCard rt tid ⟨i, t⟩ = Except.ok (r2, es) ∧
          r2.throwInCards = rt.throwInCards ++ [ThrowInEntry.mk c tid] ∧
          r2.battlefield = rt.battlefield ∧
          handOf r2 tid = some (thrower.hand.eraseIdx i.toNat)) ∧
      (¬ (rt.validThrowInRanks.contains c.rank = true ∧
          rt.battlefield.length + rt.throwInCards.length < rt.maxThrowInTotal) →
        ∃ msg, playCard rt tid ⟨i, t⟩ = Except.ok (rt, [Emit.errorMsg msg]))) := by
  constructor
  · exact ⟨_, takeCards_eval room senderId defender hgs hdef hfind, rfl, rfl, rfl, rfl, rfl⟩
  · intro rt tid i t thrower c hgs2 hph2 hfind2 helig2 hidx2
    obtain ⟨h0i, hlt, hget⟩ := jsIndex_bounds hidx2
    constructor
    · rintro ⟨hv, hcap⟩
      rw [playCard_throwIn_eval rt tid i thrower c hgs2 hfind2 helig2 hph2 hidx2 t]
      simp only [hv, Bool.not_true, Bool.false_eq_true, if_false]
      rw [if_neg (by omega : ¬ (rt.maxThrowInTotal ≤ rt.battlefield.length + rt.throwInCards.length))]
      refine ⟨_, _, rfl, ?_, ?_, ?_⟩
      · rw [(checkForWinner_preserves _ tid).2.2.2.1]
      · rw [(checkForWinner_preserves _ tid).1]
      · unfold handOf findPlayer
        rw [map_hand_checkForWinner]
        show ((updateFirst rt.players tid
          (fun q => { q with hand := jsSpliceRemove1 q.hand i })).find?
            (fun q => q.id == tid)).map (fun q => q.hand) = _
        rw [find?_updateFirst_self (f := fun q => { q with hand := jsSpliceRemove1 q.hand i })
          hfind2 (fun q => rfl)]
        simp only [Option.map_some']
        rw [jsSpliceRemove1_eq_eraseIdx thrower.hand i h0i]
    · intro hnc
      rw [playCard_throwIn_eval rt tid i thrower c hgs2 hfind2 helig2 hph2 hidx2 t]
      by_cases hv : rt.validThrowInRanks.contains c.rank = true
      · have hcap : rt.maxThrowInTotal ≤ rt.battlefield.length + rt.throwInCards.length := by
          by_contra hcc
          exact hnc ⟨hv, by omega⟩
        simp only [hv, Bool.not_true, Bool.false_eq_true, if_false]
        rw [if_pos hcap]
        exact ⟨_, rfl⟩
      · have hv' : rt.validThrowInRanks.contains c.rank = false := by
          cases h : rt.validThrowInRanks.contains c.rank with
          | true => exact absurd h hv
          | false => rfl
        simp only [hv', Bool.not_false, if_true]
        exact ⟨_, rfl⟩


/-- `checkForWinner` is the identity while the player still holds cards or
the deck is not yet empty. -/
theorem checkForWinner_noop (r : Room) (pid : String) (p : Player)
    (hf : findPlayer r pid = some p)
    (h : p.hand.length ≠ 0 ∨ r.deck.length ≠ 0) :
    checkForWinner r pid = (r, []) := by
  unfold checkForWinner
  rw [hf]
  have hc : (p.hand.length == 0 && r.deck.length == 0) = false := by
    rcases h with h1 | h2
    · have : (p.hand.length == 0) = false := by simpa using h1
      simp [this]
    · have : (r.deck.length == 0) = false := by simpa using h2
      simp [this]
  simp [hc]

/-- Evaluation of the `deflectAttack` handler past its throw-free guards. -/
theorem deflectAttack_eval (room : Room) (senderId : String) (i : Int)
    (defender nextDefender : Player) (c : Card)
    (hgs : room.gameState = "playing")
    (hdef : room.currentDefenderId = some senderId)
    (hph : room.gamePhase = "defending")
    (hnodef : room.battlefield.any (fun pr => pr.defense.isSome) = false)
    (hnext : getNextActivePlayer room senderId = some nextDefender)
    (hfind : findPlayer room senderId = some defender)
    (hidx : jsIndex defender.hand i = some c) :
    deflectAttack room senderId i =
      if room.battlefield.any (fun pr => pr.defense.isNone && pr.attack.rank == c.rank) = false then
        Except.ok (room, [Emit.errorMsg "You can only deflect with cards of the same rank"])
      else if min MAX_BATTLEFIELD_SIZE nextDefender.hand.length < room.battlefield.length + 1 then
        Except.ok (room, [Emit.errorMsg "Cannot deflect - would exceed card limit for next defender"])
      else
        Except.ok ((checkForWinner
            { room with
              battlefield := room.battlefield ++ [BattlefieldPair.mk c none senderId],
              players := updateFirst room.players senderId
                (fun q => { q with hand := jsSpliceRemove1 q.hand i }),
              currentDefenderId := some nextDefender.id,
              additionalAttackers := ((getAttackers
                { room with
                  battlefield := room.battlefield ++ [BattlefieldPair.mk c none senderId],
                  players := updateFirst room.players senderId
                    (fun q => { q with hand := jsSpliceRemove1 q.hand i }),
                  currentDefenderId := some nextDefender.id }).filter
                    (fun p => some p.id != room.initialAttackerId)).map (fun p => p.id),
              gamePhase := "defending" } senderId).1,
          [Emit.event "attackDeflected"] ++ (checkForWinner
            { room with
              battlefield := room.battlefield ++ [BattlefieldPair.mk c none senderId],
              players := updateFirst room.players senderId
                (fun q => { q with hand := jsSpliceRemove1 q.hand i }),
              currentDefenderId := some nextDefender.id,
              additionalAttackers := ((getAttackers
                { room with
                  battlefield := room.battlefield ++ [BattlefieldPair.mk c none senderId],
                  players := updateFirst room.players senderId
                    (fun q => { q with hand := jsSpliceRemove1 q.hand i }),
                  currentDefenderId := some nextDefender.id }).filter
                    (fun p => some p.id != room.initialAttackerId)).map (fun p => p.id),
              gamePhase := "defending" } senderId).2) := by
  obtain ⟨h0i, hlt, hget⟩ := jsIndex_bounds hidx
  unfold deflectAttack
  rw [hgs, hdef, hph]
  have hpl : (("playing" : String) != "playing") = false := rfl
  have hsd : (some senderId != some senderId) = false := by simp
  have hdd : (("defending" : String) != "defending") = false := rfl
  simp only [hpl, hsd, hdd, Bool.false_eq_true, if_false]
  rw [hnodef]
  simp only [Bool.false_eq_true, if_false]
  rw [hnext]
  dsimp only
  rw [hfind]
  dsimp only
  rw [if_neg (by omega : ¬ ((defender.hand.length : Int) ≤ i))]
  rw [hidx]
  dsimp only
  cases hcd : room.battlefield.any (fun pr => pr.defense.isNone && pr.attack.rank == c.rank) with
  | false =>
    simp only [hcd, Bool.false_eq_true, if_false, Bool.not_false, if_true]
  | true =>
    simp only [hcd, Bool.not_true, Bool.false_eq_true, Bool.true_eq_false, if_false, if_true]


theorem deflectAttack_reject_defended (room : Room) (senderId : String) (i : Int)
    (hgs : room.gameState = "playing")
    (hdef : room.currentDefenderId = some senderId)
    (hph : room.gamePhase = "defending")
    (hsome : room.battlefield.any (fun pr => pr.defense.isSome) = true) :
    deflectAttack room senderId i = .ok (room, [Emit.errorMsg "Cannot deflect after defending cards"]) := by
  unfold deflectAttack
  rw [hgs, hdef, hph]
  have hpl : (("playing" : String) != "playing") = false := rfl
  have hsd : (some senderId != some senderId) = false := by simp
  have hdd : (("defending" : String) != "defending") = false := rfl
  simp only [hpl, hsd, hdd, Bool.false_eq_true, if_false]
  rw [hsome]
  simp

theorem deflectAttack_reject_no_next (room : Room) (senderId : String) (i : Int)
    (hgs : room.gameState = "playing")
    (hdef : room.currentDefenderId = some senderId)
    (hph : room.gamePhase = "defending")
    (hnodef : room.battlefield.any (fun pr => pr.defense.isSome) = false)
    (hnone : getNextActivePlayer room senderId = none) :
    deflectAttack room senderId i = .ok (room, [Emit.errorMsg "Cannot deflect - no next player to defend"]) := by
  unfold deflectAttack
  rw [hgs, hdef, hph]
  have hpl : (("playing" : String) != "playing") = false := rfl
  have hsd : (some senderId != some senderId) = false := by simp
  have hdd : (("defending" : String) != "defending") = false := rfl
  simp only [hpl, hsd, hdd, Bool.false_eq_true, if_false]
  rw [hnodef]
  simp only [Bool.false_eq_true, if_false]
  rw [hnone]

theorem mem_additional_iff (r2 : Room) (aid0 : Option String) (ndid : String)
    (h2 : r2.currentDefenderId = some ndid) (x : String) :
    (x ∈ ((getAttackers r2).filter (fun p => some p.id != aid0)).map (fun p => p.id)) ↔
    ∃ p, p ∈ r2.players ∧ p.id = x ∧ p.isActive = true ∧ p.hasWon = false ∧ p.hand ≠ [] ∧
      x ≠ ndid ∧ some x ≠ aid0 := by
  unfold getAttackers
  rw [h2]
  simp only [List.mem_map, List.mem_filter]
  constructor
  · rintro ⟨p, ⟨⟨hm, hpred⟩, hg⟩, hx⟩
    subst hx
    simp only [Bool.and_eq_true, Bool.not_eq_true', bne_iff_ne, ne_eq, decide_eq_true_eq,
      gt_iff_lt] at hpred hg
    refine ⟨p, hm, rfl, ?_, ?_, ?_, ?_, ?_⟩
    · exact hpred.1.1.1
    · exact hpred.1.1.2
    · exact List.length_pos.mp hpred.2
    · exact hpred.1.2
    · exact hg
  · rintro ⟨p, hm, hx, hact, hwon, hhand, hnd2, hatk2⟩
    subst hx
    refine ⟨p, ⟨⟨hm, ?_⟩, ?_⟩, rfl⟩
    · simp only [Bool.and_eq_true, Bool.not_eq_true', bne_iff_ne, ne_eq, decide_eq_true_eq,
        gt_iff_lt]
      exact ⟨⟨⟨hact, hwon⟩, hnd2⟩, List.length_pos.mpr hhand⟩
    · simp only [bne_iff_ne, ne_eq]
      exact hatk2

/-- C7: a deflect by the current defender is rejected once any pair is
defended, when no next eligible defender exists, when the card rank matches
no undefended attack, or when the grown battlefield would exceed min 6 of
the next defender hand; otherwise the card joins the battlefield as a new
undefended pair attributed to the deflector, the defender role moves to the
next eligible player, the phase stays `defending`, and additionalAttackers
is recomputed as everyone active with cards except the new defender and the
initial attacker. -/
theorem c7_deflect
    (room : Room) (senderId : String) (i : Int) (defender : Player) (c : Card)
    (hgs : room.gameState = "playing")
    (hdef : room.currentDefenderId = some senderId)
    (hph : room.gamePhase = "defending")
    (hfind : findPlayer room senderId = some defender)
    (hidx : jsIndex defender.hand i = some c)
    (hsafe : 1 < defender.hand.length ∨ room.deck ≠ []) :
    (room.battlefield.any (fun pr => pr.defense.isSome) = true →
      deflectAttack room senderId i
        = .ok (room, [Emit.errorMsg "Cannot deflect after defending cards"])) ∧
    (room.battlefield.any (fun pr => pr.defense.isSome) = false →
      getNextActivePlayer room senderId = none →
      deflectAttack room senderId i
        = .ok (room, [Emit.errorMsg "Cannot deflect - no next player to defend"])) ∧
    (∀ nextDefender, room.battlefield.any (fun pr => pr.defense.isSome) = false →
      getNextActivePlayer room senderId = some nextDefender →
      room.battlefield.any (fun pr => pr.defense.isNone && pr.attack.rank == c.rank) = false →
      deflectAttack room senderId i
        = .ok (room, [Emit.errorMsg "You can only deflect with cards of the same rank"])) ∧
    (∀ nextDefender, room.battlefield.any (fun pr => pr.defense.isSome) = false →
      getNextActivePlayer room senderId = some nextDefender →
      room.battlefield.any (fun pr => pr.defense.isNone && pr.attack.rank == c.rank) = true →
      min MAX_BATTLEFIELD_SIZE nextDefender.hand.length < room.battlefield.length + 1 →
      deflectAttack room senderId i
        = .ok (room, [Emit.errorMsg "Cannot deflect - would exceed card limit for next defender"])) ∧
    (∀ nextDefender, room.battlefield.any (fun pr => pr.defense.isSome) = false →
      getNextActivePlayer room senderId = some nextDefender →
      room.battlefield.any (fun pr => pr.defense.isNone && pr.attack.rank == c.rank) = true →
      room.battlefield.length + 1 ≤ min MAX_BATTLEFIELD_SIZE nextDefender.hand.length →
      ∃ r' es, deflectAttack room senderId i = Except.ok (r', es) ∧
        r'.battlefield = room.battlefield ++ [BattlefieldPair.mk c none senderId] ∧
        r'.currentDefenderId = some nextDefender.id ∧
        r'.gamePhase = "defending" ∧
        r'.initialAttackerId = room.initialAttackerId ∧
        handOf r' senderId = some (defender.hand.eraseIdx i.toNat) ∧
        (∀ x, x ∈ r'.additionalAttackers ↔
          ∃ p, p ∈ r'.players ∧ p.id = x ∧ p.isActive = true ∧ p.hasWon = false ∧
            p.hand ≠ [] ∧ x ≠ nextDefender.id ∧ some x ≠ room.initialAttackerId)) := by
  obtain ⟨h0i, hlt, hget⟩ := jsIndex_bounds hidx
  refine ⟨?_, ?_, ?_, ?_, ?_⟩
  · intro hsome
    exact deflectAttack_reject_defended room senderId i hgs hdef hph hsome
  · intro hnodef hnone
    exact deflectAttack_reject_no_next room senderId i hgs hdef hph hnodef hnone
  · intro nd hnodef hnext hno
    rw [deflectAttack_eval room senderId i defender nd c hgs hdef hph hnodef hnext hfind hidx]
    rw [if_pos hno]
  · intro nd hnodef hnext hyes hcap
    rw [deflectAttack_eval room senderId i defender nd c hgs hdef hph hnodef hnext hfind hidx]
    rw [if_neg (by simp [hyes])]
    rw [if_pos hcap]
  · intro nd hnodef hnext hyes hcap
    rw [deflectAttack_eval room senderId i defender nd c hgs hdef hph hnodef hnext hfind hidx]
    rw [if_neg (by simp [hyes])]
    rw [if_neg (by omega)]
    have hfind3 : findPlayer
        { room with
          battlefield := room.battlefield ++ [BattlefieldPair.mk c none senderId],
          players := updateFirst room.players senderId
            (fun q => { q with hand := jsSpliceRemove1 q.hand i }),
          currentDefenderId := some nd.id,
          additionalAttackers := ((getAttackers
            { room with
              battlefield := room.battlefield ++ [BattlefieldPair.mk c none senderId],
              players := updateFirst room.players senderId
                (fun q => { q with hand := jsSpliceRemove1 q.hand i }),
              currentDefenderId := some nd.id }).filter
                (fun p => some p.id != room.initialAttackerId)).map (fun p => p.id),
          gamePhase := "defending" } senderId
      = some { defender with hand := jsSpliceRemove1 defender.hand i } := by
      unfold findPlayer
      exact find?_updateFirst_self (f := fun q => { q with hand := jsSpliceRemove1 q.hand i })
        hfind (fun q => rfl)
    have hlen : (jsSpliceRemove1 defender.hand i).length + 1 = defender.hand.length :=
      length_jsSpliceRemove1 hidx
    have hnoop := checkForWinner_noop _ senderId _ hfind3 (by
      rcases hsafe with h1 | h2
      · left
        simp only
        omega
      · right
        simpa using fun hh => h2 hh)
    rw [hnoop]
    refine ⟨_, _, rfl, rfl, rfl, rfl, rfl, ?_, ?_⟩
    · unfold handOf
      rw [hfind3]
      simp only [Option.map_some']
      rw [jsSpliceRemove1_eq_eraseIdx defender.hand i h0i]
    · intro x
      exact mem_additional_iff _ room.initialAttackerId nd.id rfl x

/-- C8, amended: when the deck is empty and at most one active non-winning
player still holds cards, the game ends with that player announced as the
Durak (or a draw when none remains) — but `gameState` becomes `finished`,
not `voting`, and `gamePhase` is left unchanged; no voting or rematch state
exists in the handler. -/
theorem c8_game_end_amended (room : Room)
    (hdeck : room.deck = [])
    (hle : ((room.players.filter (fun p => p.isActive && !p.hasWon)).filter
      (fun p => p.hand.length > 0)).length ≤ 1) :
    (checkGameEnd room).1.gameState = "finished" ∧
    (checkGameEnd room).1.gamePhase = room.gamePhase ∧
    (checkGameEnd room).1.players = room.players ∧
    (∀ durak, (room.players.filter (fun p => p.isActive && !p.hasWon)).filter
        (fun p => p.hand.length > 0) = [durak] →
      (checkGameEnd room).2 = [Emit.gameOver durak.id]) ∧
    ((room.players.filter (fun p => p.isActive && !p.hasWon)).filter
        (fun p => p.hand.length > 0) = [] →
      (checkGameEnd room).2 = [Emit.gameDraw]) := by
  unfold checkGameEnd
  dsimp only
  have hd0 : (room.deck.length == 0) = true := by
    rw [hdeck]
    rfl
  rw [hd0]
  simp only [if_true]
  rw [if_pos hle]
  cases hw : (room.players.filter (fun p => p.isActive && !p.hasWon)).filter
      (fun p => p.hand.length > 0) with
  | nil =>
    refine ⟨rfl, rfl, rfl, ?_, ?_⟩
    · intro durak hdk
      simp at hdk
    · intro _
      rfl
  | cons d rest =>
    cases rest with
    | nil =>
      refine ⟨rfl, rfl, rfl, ?_, ?_⟩
      · intro durak hdk
        simp only [List.cons.injEq] at hdk
        rw [hdk.1]
      · intro hdk
        simp at hdk
    | cons d2 rest2 =>
      rw [hw] at hle
      simp at hle


/-- Total circulating cards of a handler result, when it did not throw. -/
def resultTotal (e : Except Unit (Room × List Emit)) : Option Nat :=
  match e with
  | .ok rp => some (totalCards rp.1)
  | .error _ => none

theorem battlefieldCount_append (l1 l2 : List BattlefieldPair) :
    battlefieldCount (l1 ++ l2) = battlefieldCount l1 + battlefieldCount l2 := by
  unfold battlefieldCount
  rw [List.map_append, List.sum_append]

theorem c1_attack_total (room : Room) (senderId did : String) (i t : Int)
    (player defender : Player) (c : Card)
    (hgs : room.gameState = "playing")
    (hfind : findPlayer room senderId = some player)
    (helig : (room.initialAttackerId == some senderId
      || room.additionalAttackers.contains senderId) = true)
    (hph : room.gamePhase = "attacking")
    (hdid : room.currentDefenderId = some did)
    (hdfind : findPlayer room did = some defender)
    (hidx : jsIndex player.hand i = some c) :
    resultTotal (playCard room senderId ⟨i, t⟩) = some (totalCards room) := by
  obtain ⟨h0i, hlt, hget⟩ := jsIndex_bounds hidx
  rw [playCard_attack_eval room senderId did i player defender c hgs hfind helig hph hdid
    hdfind hidx t]
  by_cases hmax : min MAX_BATTLEFIELD_SIZE defender.hand.length ≤ room.battlefield.length
  · rw [if_pos hmax]
    rfl
  · rw [if_neg hmax]
    by_cases hrank : (decide (room.battlefield.length > 0) &&
        !(battlefieldRanks room.battlefield).contains c.rank) = true
    · rw [if_pos hrank]
      rfl
    · rw [if_neg hrank]
      unfold resultTotal
      dsimp only
      congr 1
      rw [totalCards_checkForWinner]
      unfold totalCards
      have hht := handsTotal_updateFirst
        (f := fun q => { q with hand := jsSpliceRemove1 q.hand i }) hfind
      have hsl : (jsSpliceRemove1 player.hand i).length + 1 = player.hand.length :=
        length_jsSpliceRemove1 hidx
      have hbc : battlefieldCount (room.battlefield ++ [BattlefieldPair.mk c none senderId])
          = battlefieldCount room.battlefield + 1 := by
        rw [battlefieldCount_append]
        rfl
      simp only at hht
      simp only [hbc]
      omega

theorem c1_defense_total (room : Room) (senderId : String) (i t : Int)
    (player : Player) (c : Card)
    (hgs : room.gameState = "playing")
    (hfind : findPlayer room senderId = some player)
    (hdef : room.currentDefenderId = some senderId)
    (hph : room.gamePhase = "defending")
    (hidx : jsIndex player.hand i = some c) :
    resultTotal (playCard room senderId ⟨i, t⟩) = some (totalCards room) := by
  obtain ⟨h0i, hlt, hget⟩ := jsIndex_bounds hidx
  rw [playCard_defense_eval room senderId i player c hgs hfind hdef hph hidx t]
  cases hu : room.battlefield.find? (fun pr => pr.defense.isNone) with
  | none => rfl
  | some pr =>
    dsimp only
    by_cases hcd : canDefend c pr.attack = true
    · rw [if_pos hcd]
      unfold resultTotal
      dsimp only
      congr 1
      rw [totalCards_checkForWinner]
      have hht := handsTotal_updateFirst
        (f := fun q => { q with hand := jsSpliceRemove1 q.hand i }) hfind
      have hsl : (jsSpliceRemove1 player.hand i).length + 1 = player.hand.length :=
        length_jsSpliceRemove1 hidx
      have hbc := defendFirst_count (c := c) hu
      by_cases hall : ((defendFirst room.battlefield c).all fun pr => pr.defense.isSome) = true
      · rw [if_pos hall]
        unfold totalCards
        simp only at hht
        simp only [hbc]
        omega
      · rw [if_neg hall]
        unfold totalCards
        simp only at hht
        simp only [hbc]
        omega
    · rw [if_neg hcd]
      rfl

theorem c1_throwIn_total (room : Room) (senderId : String) (i t : Int)
    (player : Player) (c : Card)
    (hgs : room.gameState = "playing")
    (hfind : findPlayer room senderId = some player)
    (helig : (room.initialAttackerId == some senderId
      || room.additionalAttackers.contains senderId) = true)
    (hph : room.gamePhase = "throwIn")
    (hidx : jsIndex player.hand i = some c) :
    resultTotal (playCard room senderId ⟨i, t⟩) = some (totalCards room) := by
  obtain ⟨h0i, hlt, hget⟩ := jsIndex_bounds hidx
  rw [playCard_throwIn_eval room senderId i player c hgs hfind helig hph hidx t]
  by_cases hv : (!(room.validThrowInRanks.contains c.rank)) = true
  · rw [if_pos hv]
    rfl
  · rw [if_neg hv]
    by_cases hcap : room.maxThrowInTotal ≤ room.battlefield.length + room.throwInCards.length
    · rw [if_pos hcap]
      rfl
    · rw [if_neg hcap]
      unfold resultTotal
      dsimp only
      congr 1
      rw [totalCards_checkForWinner]
      unfold totalCards
      have hht := handsTotal_updateFirst
        (f := fun q => { q with hand := jsSpliceRemove1 q.hand i }) hfind
      have hsl : (jsSpliceRemove1 player.hand i).length + 1 = player.hand.length :=
        length_jsSpliceRemove1 hidx
      simp only at hht
      simp only [List.length_append, List.length_cons, List.length_nil]
      omega



theorem c1_deflect_total (room : Room) (senderId : String) (i : Int)
    (defender : Player) (c : Card)
    (hgs : room.gameState = "playing")
    (hdef : room.currentDefenderId = some senderId)
    (hph : room.gamePhase = "defending")
    (hfind : findPlayer room senderId = some defender)
    (hidx : jsIndex defender.hand i = some c) :
    resultTotal (deflectAttack room senderId i) = some (totalCards room) := by
  obtain ⟨h0i, hlt, hget⟩ := jsIndex_bounds hidx
  cases hsome : room.battlefield.any (fun pr => pr.defense.isSome) with
  | true =>
    rw [deflectAttack_reject_defended room senderId i hgs hdef hph hsome]
    rfl
  | false =>
    cases hnext : getNextActivePlayer room senderId with
    | none =>
      rw [deflectAttack_reject_no_next room senderId i hgs hdef hph hsome hnext]
      rfl
    | some nd =>
      rw [deflectAttack_eval room senderId i defender nd c hgs hdef hph hsome hnext hfind hidx]
      by_cases hcd : (room.battlefield.any fun pr => pr.defense.isNone && pr.attack.rank == c.rank) = false
      · rw [if_pos hcd]
        rfl
      · rw [if_neg hcd]
        by_cases hcap : min MAX_BATTLEFIELD_SIZE nd.hand.length < room.battlefield.length + 1
        · rw [if_pos hcap]
          rfl
        · rw [if_neg hcap]
          unfold resultTotal
          dsimp only
          congr 1
          rw [totalCards_checkForWinner]
          unfold totalCards
          have hht := handsTotal_updateFirst
            (f := fun q => { q with hand := jsSpliceRemove1 q.hand i }) hfind
          have hsl : (jsSpliceRemove1 defender.hand i).length + 1 = defender.hand.length :=
            length_jsSpliceRemove1 hidx
          have hbc : battlefieldCount (room.battlefield ++ [BattlefieldPair.mk c none senderId])
              = battlefieldCount room.battlefield + 1 := by
            rw [battlefieldCount_append]
            rfl
          simp only at hht
          simp only [hbc]
          omega

theorem c1_takeCards_deficit (room : Room) (senderId : String) (defender : Player)
    (hgs : room.gameState = "playing")
    (hdef : room.currentDefenderId = some senderId)
    (hfind : findPlayer room senderId = some defender) :
    ∃ r1 es, takeCards room senderId = Except.ok (r1, es) ∧
      totalCards room = totalCards r1 + room.throwInCards.length := by
  refine ⟨_, _, takeCards_eval room senderId defender hgs hdef hfind, ?_⟩
  unfold totalCards
  dsimp only
  simp only [List.length_nil]
  omega

theorem c1_completeTakeCards_total (room : Room) (did : String) (defender : Player)
    (hdid : room.currentDefenderId = some did)
    (hfind : findPlayer room did = some defender) :
    resultTotal (completeTakeCards room) = some (totalCards room) := by
  unfold completeTakeCards
  rw [hdid]
  simp only [hfind, Option.isSome_some, Bool.not_true, Bool.false_and, Bool.false_eq_true,
    if_false]
  unfold resultTotal
  dsimp only
  congr 1
  rw [totalCards_checkGameEnd]
  unfold totalCards
  dsimp only
  have hht := handsTotal_updateFirst
    (f := fun q => { q with hand := q.hand ++ (battlefieldCards room.battlefield
      ++ room.throwInCards.map (fun e => e.card)) }) hfind
  simp only [List.length_append, List.length_map] at hht
  have hbl := battlefieldCards_length room.battlefield
  cases haid : room.initialAttackerId with
  | none =>
    dsimp only
    have h3 := drawSlots_length room.trumpSuit
      (fun p => (none : Option String) != some p.id && (some did : Option String) != some p.id &&
        p.isActive && !p.hasWon)
      room.deck
      (updateFirst room.players did (fun q => { q with hand := q.hand ++ (battlefieldCards
        room.battlefield ++ room.throwInCards.map (fun e => e.card)) }))
    have hbe : battlefieldCount ([] : List BattlefieldPair) = 0 := rfl
    simp only [List.length_nil]
    omega
  | some aid =>
    dsimp only
    have h2 := drawFirstMatch_length room.trumpSuit aid room.deck
      (updateFirst room.players did (fun q => { q with hand := q.hand ++ (battlefieldCards
        room.battlefield ++ room.throwInCards.map (fun e => e.card)) }))
    have h3 := drawSlots_length room.trumpSuit
      (fun p => (some aid : Option String) != some p.id && (some did : Option String) != some p.id &&
        p.isActive && !p.hasWon)
      (drawFirstMatch room.trumpSuit aid room.deck
        (updateFirst room.players did (fun q => { q with hand := q.hand ++ (battlefieldCards
          room.battlefield ++ room.throwInCards.map (fun e => e.card)) }))).1
      (drawFirstMatch room.trumpSuit aid room.deck
        (updateFirst room.players did (fun q => { q with hand := q.hand ++ (battlefieldCards
          room.battlefield ++ room.throwInCards.map (fun e => e.card)) }))).2
    have hbe : battlefieldCount ([] : List BattlefieldPair) = 0 := rfl
    simp only [List.length_nil]
    omega



/-- C5: take settlement — reached identically from the finish-throw-in
intent and from the throw-in timer — moves every battlefield attack and
defense plus every thrown-in card into the defender hand, clears the
battlefield, the pile and the frozen rank set, refills the initial attacker
from the deck (and every other non-defender attacker up to six while cards
remain), and returns the phase to `attacking` with both role ids
unchanged. -/
theorem c5_take_settlement (room : Room) (did aid : String) (defender atk : Player)
    (hdid : room.currentDefenderId = some did)
    (hfind : findPlayer room did = some defender)
    (haid : room.initialAttackerId = some aid)
    (hafind : findPlayer room aid = some atk)
    (hne : aid ≠ did) :
    (∃ r' es, completeTakeCards room = Except.ok (r', es) ∧
      r'.battlefield = [] ∧
      r'.throwInCards = [] ∧
      r'.validThrowInRanks = [] ∧
      r'.gamePhase = "attacking" ∧
      r'.initialAttackerId = room.initialAttackerId ∧
      r'.currentDefenderId = room.currentDefenderId ∧
      findPlayer r' did = some { defender with
        hand := defender.hand ++ (battlefieldCards room.battlefield
          ++ room.throwInCards.map (fun e => e.card)) } ∧
      findPlayer r' aid = some { atk with
        hand := (drawHand room.trumpSuit room.deck atk.hand).2 } ∧
      (r'.deck ≠ [] → ∀ p ∈ r'.players, p.isActive = true → p.hasWon = false →
        some p.id ≠ room.currentDefenderId → some p.id ≠ room.initialAttackerId →
        INITIAL_HAND_SIZE ≤ p.hand.length)) ∧
    (room.gameState = "playing" → room.gamePhase = "throwIn" →
      finishThrowIn room aid = completeTakeCards room) ∧
    throwInTimerFire room = completeTakeCards room := by
  have hfin : (room.gameState = "playing" → room.gamePhase = "throwIn" →
      finishThrowIn room aid = completeTakeCards room) := by
    intro hgs hph
    unfold finishThrowIn
    rw [hgs, hph, haid]
    have hpl : (("playing" : String) != "playing") = false := rfl
    have hti : (("throwIn" : String) != "throwIn") = false := rfl
    have hsa : (some aid != some aid) = false := by simp
    simp [hpl, hti, hsa]
  refine ⟨?_, hfin, rfl⟩
  unfold completeTakeCards
  rw [hdid]
  simp only [hfind, Option.isSome_some, Bool.not_true, Bool.false_and, Bool.false_eq_true,
    if_false]
  rw [haid]
  dsimp only
  refine ⟨_, _, rfl, ?_, ?_, ?_, ?_, ?_, ?_, ?_, ?_, ?_⟩
  · rw [(checkGameEnd_preserves _).2.2.2.1]
  · rw [(checkGameEnd_preserves _).2.2.2.2.1]
  · rw [(checkGameEnd_preserves _).2.2.2.2.2.2.2.2.2]
  · rw [(checkGameEnd_preserves _).2.2.1]
  · rw [(checkGameEnd_preserves _).2.2.2.2.2.1]
  · rw [(checkGameEnd_preserves _).2.2.2.2.2.2.1]
  · unfold findPlayer
    rw [(checkGameEnd_preserves _).1]
    dsimp only
    rw [find?_drawSlots_of_cond_false (fun q hq => by
      simp [hq, hne])]
    rw [find?_drawFirstMatch_ne (Ne.symm hne)]
    exact find?_updateFirst_self (f := fun q => { q with hand := q.hand ++ (battlefieldCards
      room.battlefield ++ room.throwInCards.map (fun e => e.card)) }) hfind (fun q => rfl)
  · unfold findPlayer
    rw [(checkGameEnd_preserves _).1]
    dsimp only
    rw [find?_drawSlots_of_cond_false (fun q hq => by simp [hq])]
    have hfau : (updateFirst room.players did (fun q => { q with hand := q.hand
        ++ (battlefieldCards room.battlefield ++ room.throwInCards.map (fun e => e.card)) })).find?
          (fun q => q.id == aid) = some atk := by
      rw [find?_updateFirst_ne (f := fun q => { q with hand := q.hand
        ++ (battlefieldCards room.battlefield ++ room.throwInCards.map (fun e => e.card)) })
        (fun q => rfl) hne]
      exact hafind
    exact (drawFirstMatch_found hfau).2
  · intro hdne p hp hact hwon hnd hna
    rw [(checkGameEnd_preserves _).2.1] at hdne
    rw [(checkGameEnd_preserves _).1] at hp
    dsimp only at hdne hp
    rcases drawSlots_refill hdne p hp with ⟨hm, hcf⟩ | hlen
    · exfalso
      have hct : (some aid != some p.id && some did != some p.id && p.isActive && !p.hasWon) = true := by
        simp only [Bool.and_eq_true, bne_iff_ne, ne_eq]
        refine ⟨⟨⟨?_, ?_⟩, hact⟩, by simp [hwon]⟩
        · intro hcc
          exact hna hcc.symm
        · intro hcc
          exact hnd hcc.symm
      rw [hcf] at hct
      simp at hct
    · exact hlen



theorem c1_draw_total (room : Room) (pid : String) :
    totalCards (drawCardsForPlayer room pid) = totalCards room := by
  unfold drawCardsForPlayer totalCards
  dsimp only
  have h := drawFirstMatch_length room.trumpSuit pid room.deck room.players
  omega

theorem c1_successfulDefense_deficit (room : Room) :
    totalCards room = totalCards (completeSuccessfulDefense room).1
      + battlefieldCount room.battlefield + room.throwInCards.length := by
  unfold completeSuccessfulDefense
  dsimp only
  rw [totalCards_checkGameEnd]
  have hbe : battlefieldCount ([] : List BattlefieldPair) = 0 := rfl
  cases haid : room.initialAttackerId with
  | none =>
    dsimp only
    have h3 := drawSlots_length room.trumpSuit
      (fun p => (none : Option String) != some p.id && p.isActive && !p.hasWon)
      room.deck room.players
    split
    · unfold totalCards
      dsimp only
      simp only [List.length_nil, hbe]
      omega
    · split
      · unfold totalCards
        dsimp only
        simp only [List.length_nil, hbe]
        omega
      · unfold totalCards
        dsimp only
        simp only [List.length_nil, hbe]
        omega
  | some aid =>
    dsimp only
    have h2 := drawFirstMatch_length room.trumpSuit aid room.deck room.players
    have h3 := drawSlots_length room.trumpSuit
      (fun p => (some aid : Option String) != some p.id && p.isActive && !p.hasWon)
      (drawFirstMatch room.trumpSuit aid room.deck room.players).1
      (drawFirstMatch room.trumpSuit aid room.deck room.players).2
    split
    · unfold totalCards
      dsimp only
      simp only [List.length_nil, hbe]
      omega
    · split
      · unfold totalCards
        dsimp only
        simp only [List.length_nil, hbe]
        omega
      · unfold totalCards
        dsimp only
        simp only [List.length_nil, hbe]
        omega



/-- C6, amended: successful-defense settlement clears the battlefield and
throw-in pile, draws the initial attacker first from the deck, then refills
the remaining eligible players in players-array order — the defender holds
no privileged second slot — hands the attacking initiative to the old
defender, picks the next eligible player after them as the new defender,
recomputes additionalAttackers, and resets the phase to `attacking`;
triggered by the initial attacker ending the attack while the phase is
`attacking` or every pair is defended. -/
theorem c6_defense_settlement (room : Room) (did aid : String) (defender atk : Player)
    (hdid : room.currentDefenderId = some did)
    (hfind : findPlayer room did = some defender)
    (haid : room.initialAttackerId = some aid)
    (hafind : findPlayer room aid = some atk) :
    (∃ r' es, completeSuccessfulDefense room = (r', es) ∧
      r'.battlefield = [] ∧
      r'.throwInCards = [] ∧
      r'.gamePhase = "attacking" ∧
      r'.initialAttackerId = some did ∧
      findPlayer r' aid = some { atk with
        hand := (drawHand room.trumpSuit room.deck atk.hand).2 } ∧
      (∀ nd, getNextActivePlayer room did = some nd →
        r'.currentDefenderId = some nd.id ∧
        (∀ x, x ∈ r'.additionalAttackers ↔
          ∃ p, p ∈ r'.players ∧ p.id = x ∧ p.isActive = true ∧ p.hasWon = false ∧
            p.hand ≠ [] ∧ x ≠ nd.id ∧ some x ≠ some did)) ∧
      (getNextActivePlayer room did = none →
        r'.currentDefenderId = room.currentDefenderId ∧
        r'.additionalAttackers = room.additionalAttackers) ∧
      (r'.deck ≠ [] → ∀ p ∈ r'.players, p.isActive = true → p.hasWon = false →
        some p.id ≠ room.initialAttackerId → INITIAL_HAND_SIZE ≤ p.hand.length)) ∧
    (room.gameState = "playing" →
      (room.gamePhase = "attacking" ∨
        (room.battlefield.length > 0 ∧ room.battlefield.all (fun pr => pr.defense.isSome) = true)) →
      endAttack room aid = completeSuccessfulDefense room) := by
  have hdefid : defender.id = did := by
    have h := List.find?_some hfind
    simpa using h
  have hend : room.gameState = "playing" →
      (room.gamePhase = "attacking" ∨
        (room.battlefield.length > 0 ∧ room.battlefield.all (fun pr => pr.defense.isSome) = true)) →
      endAttack room aid = completeSuccessfulDefense room := by
    intro hgs hcond
    unfold endAttack
    rw [hgs, haid]
    have hpl : (("playing" : String) != "playing") = false := rfl
    have hsa : (some aid != some aid) = false := by simp
    simp only [hpl, hsa, Bool.false_eq_true, if_false]
    have hcb : (room.gamePhase == "attacking" ||
        (decide (room.battlefield.length > 0) && room.battlefield.all (fun pr => pr.defense.isSome))) = true := by
      rcases hcond with h1 | ⟨h2, h3⟩
      · rw [h1]
        simp
      · simp [h2, h3]
    rw [hcb]
    simp
  refine ⟨?_, hend⟩
  unfold completeSuccessfulDefense
  rw [hdid]
  dsimp only
  rw [hfind]
  simp only [Option.map_some']
  rw [hdefid, haid]
  dsimp only
  generalize hR2 : drawFirstMatch room.trumpSuit aid room.deck room.players = R2
  generalize hR3 : drawSlots room.trumpSuit
    (fun p => some aid != some p.id && p.isActive && !p.hasWon) R2.1 R2.2 = R3
  have hmapR3 : R3.2.map roleView = room.players.map roleView := by
    rw [← hR3, ← hR2]
    rw [roleView_drawSlots, roleView_drawFirstMatch]
  generalize hra : ({ room with
    battlefield := ([] : List BattlefieldPair),
    throwInCards := ([] : List ThrowInEntry),
    deck := R3.1,
    players := R3.2,
    currentDefenderId := some did,
    initialAttackerId := some did } : Room) = ra
  have hraP : ra.players = R3.2 := by rw [← hra]
  have hraD : ra.currentDefenderId = some did := by rw [← hra]
  have hraB : ra.battlefield = [] := by rw [← hra]
  have hraT : ra.throwInCards = [] := by rw [← hra]
  have hraA : ra.initialAttackerId = some did := by rw [← hra]
  have hraDeck : ra.deck = R3.1 := by rw [← hra]
  have hraAdd : ra.additionalAttackers = room.additionalAttackers := by rw [← hra]
  have hmap : ra.players.map roleView = room.players.map roleView := by
    rw [hraP]
    exact hmapR3
  have hcongr := getNextActivePlayer_congr hmap did
  have hfindAid : R3.2.find? (fun q => q.id == aid)
      = some { atk with hand := (drawHand room.trumpSuit room.deck atk.hand).2 } := by
    rw [← hR3]
    rw [find?_drawSlots_of_cond_false (fun q hq => by simp [hq])]
    rw [← hR2]
    exact (drawFirstMatch_found hafind).2
  have hrefill : R3.1 ≠ [] → ∀ p ∈ R3.2, p.isActive = true → p.hasWon = false →
      some p.id ≠ some aid → INITIAL_HAND_SIZE ≤ p.hand.length := by
    intro hdne p hp hact hwon hna
    rw [← hR3] at hdne hp
    rcases drawSlots_refill hdne p hp with ⟨hm, hcf⟩ | hlen
    · exfalso
      have hct : (some aid != some p.id && p.isActive && !p.hasWon) = true := by
        simp only [Bool.and_eq_true, bne_iff_ne, ne_eq]
        refine ⟨⟨?_, hact⟩, by simp [hwon]⟩
        intro hcc
        exact hna hcc.symm
      rw [hcf] at hct
      simp at hct
    · exact hlen
  cases hq : getNextActivePlayer ra did with
  | none =>
    dsimp only
    refine ⟨_, _, rfl, ?_, ?_, ?_, ?_, ?_, ?_, ?_, ?_⟩
    · rw [(checkGameEnd_preserves _).2.2.2.1]
      exact hraB
    · rw [(checkGameEnd_preserves _).2.2.2.2.1]
      exact hraT
    · rw [(checkGameEnd_preserves _).2.2.1]
    · rw [(checkGameEnd_preserves _).2.2.2.2.2.1]
      exact hraA
    · unfold findPlayer
      rw [(checkGameEnd_preserves _).1]
      dsimp only
      rw [hraP]
      exact hfindAid
    · intro nd hnd
      rw [hq, hnd] at hcongr
      simp at hcongr
    · intro _
      constructor
      · rw [(checkGameEnd_preserves _).2.2.2.2.2.2.1]
        dsimp only
        rw [hraD]
      · rw [(checkGameEnd_preserves _).2.2.2.2.2.2.2.1]
        dsimp only
        exact hraAdd
    · intro hdne p hp hact hwon hna
      rw [(checkGameEnd_preserves _).2.1] at hdne
      rw [(checkGameEnd_preserves _).1] at hp
      dsimp only at hdne hp
      rw [hraDeck] at hdne
      rw [hraP] at hp
      exact hrefill hdne p hp hact hwon hna
  | some q =>
    dsimp only
    refine ⟨_, _, rfl, ?_, ?_, ?_, ?_, ?_, ?_, ?_, ?_⟩
    · rw [(checkGameEnd_preserves _).2.2.2.1]
    · rw [(checkGameEnd_preserves _).2.2.2.2.1]
    · rw [(checkGameEnd_preserves _).2.2.1]
    · rw [(checkGameEnd_preserves _).2.2.2.2.2.1]
    · unfold findPlayer
      rw [(checkGameEnd_preserves _).1]
      dsimp only
      exact hfindAid
    · intro nd hnd
      rw [hq, hnd] at hcongr
      simp only [Option.map_some', Option.some.injEq] at hcongr
      have hqid : q.id = nd.id := by
        simp only [roleView, Prod.mk.injEq] at hcongr
        exact hcongr.1
      constructor
      · rw [(checkGameEnd_preserves _).2.2.2.2.2.2.1]
        dsimp only
        rw [hqid]
      · intro x
        rw [(checkGameEnd_preserves _).2.2.2.2.2.2.2.1, (checkGameEnd_preserves _).1]
        dsimp only
        simp only [← hqid]
        exact mem_additional_iff _ (some did) q.id rfl x
    · intro hnone
      rw [hq] at hcongr
      rw [hnone] at hcongr
      simp at hcongr
    · intro hdne p hp hact hwon hna
      rw [(checkGameEnd_preserves _).2.1] at hdne
      rw [(checkGameEnd_preserves _).1] at hp
      dsimp only at hdne hp
      exact hrefill hdne p hp hact hwon hna

/-- A sample non-trump six of spades. -/
def cS6 : Card := ⟨"spades", "6", 6, false⟩

/-- A sample non-trump seven of spades. -/
def cS7 : Card := ⟨"spades", "7", 7, false⟩

/-- A sample trump eight of hearts. -/
def cH8 : Card := ⟨"hearts", "8", 8, true⟩

/-- A sample non-trump six of clubs. -/
def cC6 : Card := ⟨"clubs", "6", 6, false⟩

/-- A sample attacker holding two spades. -/
def p1A : Player := ⟨"a", "Ann", [cS6, cS7], true, 0, true, false⟩

/-- A sample defender holding a trump and a club. -/
def p1B : Player := ⟨"b", "Bob", [cH8, cC6], true, 1, true, false⟩

/-- A two-player room in the attacking phase. -/
def c1roomA : Room :=
  ⟨[p1A, p1B], "playing", "attacking", [], [], "hearts", some "a", some "b",
    [], [], [], 6, [], ["a", "b"]⟩

/-- The same room in the defending phase with one undefended attack. -/
def c1roomD : Room :=
  { c1roomA with gamePhase := "defending", battlefield := [⟨cS6, none, "a"⟩] }

/-- The same room in the throw-in phase with rank 6 throwable. -/
def c1roomT : Room :=
  { c1roomA with gamePhase := "throwIn", validThrowInRanks := ["6"] }

/-- The defending-phase room moved into the throw-in window with one card
already thrown in. -/
def c1roomTI : Room :=
  { c1roomD with gamePhase := "throwIn", throwInCards := [⟨cS7, "a"⟩] }

/-- C1, amended: the playCard branches (attack, defense and throw-in), the
deflect intent, the take settlement and a single player draw each conserve
the total card count (deck + hands + battlefield + throw-in pile).  Two
operations lose cards instead: the take-cards intent resets the throw-in
pile unconditionally — the handler has no phase guard, so repeating it
during the throw-in window drops every card already thrown in — and the
successful-defense settlement removes the battlefield and throw-in cards
from circulation without any discard pile.  The claimed universally
conserved total of 36 is false; the tracked total can only fall. -/
theorem c1_card_conservation_amended :
    (∀ (room : Room) (senderId did : String) (i t : Int) (player defender : Player) (c : Card),
      room.gameState = "playing" → findPlayer room senderId = some player →
      (room.initialAttackerId == some senderId
        || room.additionalAttackers.contains senderId) = true →
      room.gamePhase = "attacking" → room.currentDefenderId = some did →
      findPlayer room did = some defender → jsIndex player.hand i = some c →
      resultTotal (playCard room senderId ⟨i, t⟩) = some (totalCards room)) ∧
    (∀ (room : Room) (senderId : String) (i t : Int) (player : Player) (c : Card),
      room.gameState = "playing" → findPlayer room senderId = some player →
      room.currentDefenderId = some senderId → room.gamePhase = "defending" →
      jsIndex player.hand i = some c →
      resultTotal (playCard room senderId ⟨i, t⟩) = some (totalCards room)) ∧
    (∀ (room : Room) (senderId : String) (i t : Int) (player : Player) (c : Card),
      room.gameState = "playing" → findPlayer room senderId = some player →
      (room.initialAttackerId == some senderId
        || room.additionalAttackers.contains senderId) = true →
      room.gamePhase = "throwIn" → jsIndex player.hand i = some c →
      resultTotal (playCard room senderId ⟨i, t⟩) = some (totalCards room)) ∧
    (∀ (room : Room) (senderId : String) (i : Int) (defender : Player) (c : Card),
      room.gameState = "playing" → room.currentDefenderId = some senderId →
      room.gamePhase = "defending" → findPlayer room senderId = some defender →
      jsIndex defender.hand i = some c →
      resultTotal (deflectAttack room senderId i) = some (totalCards room)) ∧
    (∀ (room : Room) (senderId : String) (defender : Player),
      room.gameState = "playing" → room.currentDefenderId = some senderId →
      findPlayer room senderId = some defender →
      ∃ r1 es, takeCards room senderId = Except.ok (r1, es) ∧
        totalCards room = totalCards r1 + room.throwInCards.length) ∧
    (∀ (room : Room) (did : String) (defender : Player),
      room.currentDefenderId = some did → findPlayer room did = some defender →
      resultTotal (completeTakeCards room) = some (totalCards room)) ∧
    (∀ (room : Room) (pid : String),
      totalCards (drawCardsForPlayer room pid) = totalCards room) ∧
    (∀ room : Room,
      totalCards room = totalCards (completeSuccessfulDefense room).1
        + battlefieldCount room.battlefield + room.throwInCards.length) := by
  refine ⟨?_, ?_, ?_, ?_, ?_, ?_, ?_, ?_⟩
  · intro room senderId did i t player defender c h1 h2 h3 h4 h5 h6 h7
    exact c1_attack_total room senderId did i t player defender c h1 h2 h3 h4 h5 h6 h7
  · intro room senderId i t player c h1 h2 h3 h4 h5
    exact c1_defense_total room senderId i t player c h1 h2 h3 h4 h5
  · intro room senderId i t player c h1 h2 h3 h4 h5
    exact c1_throwIn_total room senderId i t player c h1 h2 h3 h4 h5
  · intro room senderId i defender c h1 h2 h3 h4 h5
    exact c1_deflect_total room senderId i defender c h1 h2 h3 h4 h5
  · intro room senderId defender h1 h2 h3
    exact c1_takeCards_deficit room senderId defender h1 h2 h3
  · intro room did defender h1 h2
    exact c1_completeTakeCards_total room did defender h1 h2
  · intro room pid
    exact c1_draw_total room pid
  · intro room
    exact c1_successfulDefense_deficit room

/-- Concrete instances of every conjunct of the per-operation conservation
theorem, evaluated on the sample rooms; the take-cards instance runs on a
room whose throw-in pile already holds a card, exhibiting the deficit of
exactly that pile length. -/
theorem c1_card_conservation_amended_witness :
    resultTotal (playCard c1roomA "a" ⟨0, 0⟩) = some (totalCards c1roomA) ∧
    resultTotal (playCard c1roomD "b" ⟨0, 0⟩) = some (totalCards c1roomD) ∧
    resultTotal (playCard c1roomT "a" ⟨0, 0⟩) = some (totalCards c1roomT) ∧
    resultTotal (deflectAttack c1roomD "b" 0) = some (totalCards c1roomD) ∧
    (∃ r1 es, takeCards c1roomTI "b" = Except.ok (r1, es) ∧
      totalCards c1roomTI = totalCards r1 + c1roomTI.throwInCards.length) ∧
    resultTotal (completeTakeCards c1roomD) = some (totalCards c1roomD) ∧
    totalCards (drawCardsForPlayer c1roomA "a") = totalCards c1roomA ∧
    totalCards c1roomD = totalCards (completeSuccessfulDefense c1roomD).1
      + battlefieldCount c1roomD.battlefield + c1roomD.throwInCards.length := by
  have h := c1_card_conservation_amended
  exact ⟨h.1 c1roomA "a" "b" 0 0 p1A p1B cS6 rfl rfl rfl rfl rfl rfl rfl,
    h.2.1 c1roomD "b" 0 0 p1B cH8 rfl rfl rfl rfl rfl,
    h.2.2.1 c1roomT "a" 0 0 p1A cS6 rfl rfl rfl rfl rfl,
    h.2.2.2.1 c1roomD "b" 0 p1B cH8 rfl rfl rfl rfl rfl,
    h.2.2.2.2.1 c1roomTI "b" p1B rfl rfl rfl,
    h.2.2.2.2.2.1 c1roomD "b" p1B rfl rfl,
    h.2.2.2.2.2.2.1 c1roomA "a",
    h.2.2.2.2.2.2.2 c1roomD⟩

/-- The attacker of the conservation counterexample: five cards in hand. -/
def c1cexA : Player := ⟨"a", "Ann", createDeckCards.take 5, true, 0, true, false⟩

/-- The defender of the conservation counterexample: five cards in hand. -/
def c1cexB : Player := ⟨"b", "Bob", (createDeckCards.drop 5).take 5, true, 1, true, false⟩

/-- A mid-round position with 36 cards in circulation: two hands of five, one
defended battlefield pair, and a 24-card deck. -/
def c1cex : Room :=
  ⟨[c1cexA, c1cexB], "playing", "defending", createDeckCards.drop 12,
    [⟨(createDeckCards.get? 10).getD cS6, some ((createDeckCards.get? 11).getD cS7), "a"⟩],
    "hearts", some "a", some "b", [], [], [], 6, [], ["a", "b"]⟩

/-- The same position during the throw-in window: one card already thrown
in, 23 left in the deck — still 36 cards in circulation. -/
def c1cexTI : Room :=
  { c1cex with
    gamePhase := "throwIn",
    deck := createDeckCards.drop 13,
    throwInCards := [⟨(createDeckCards.get? 12).getD cS6, "a"⟩] }

/-- Two concrete refutations of the 36-card invariant, neither involving a
lost or duplicated hand card.  Settling a successful defense on a 36-card
position leaves 34 cards in circulation: the two battlefield cards are
dropped, not discarded to any tracked pile.  And repeating the take-cards
intent during the throw-in window of a 36-card position leaves 35: the
handler resets the throw-in pile unconditionally, dropping the card already
thrown in — a loss that needs no successful defense at all. -/
theorem c1_conservation_counterexample :
    (totalCards c1cex = 36 ∧
      totalCards (completeSuccessfulDefense c1cex).1 = 34 ∧
      (completeSuccessfulDefense c1cex).1.gameState = "playing") ∧
    (totalCards c1cexTI = 36 ∧
      c1cexTI.gamePhase = "throwIn" ∧
      resultTotal (takeCards c1cexTI "b") = some 35) := by
  exact ⟨⟨rfl, rfl, rfl⟩, ⟨rfl, rfl, rfl⟩⟩

/-- A sample non-trump seven of diamonds. -/
def cD7 : Card := ⟨"diamonds", "7", 7, false⟩

/-- A sample non-trump eight of diamonds. -/
def cD8 : Card := ⟨"diamonds", "8", 8, false⟩

/-- A sample non-trump nine of clubs. -/
def cC9 : Card := ⟨"clubs", "9", 9, false⟩

/-- A sample non-trump ten of clubs. -/
def cC10 : Card := ⟨"clubs", "10", 10, false⟩

/-- An attacker holding a six of clubs only. -/
def p3A : Player := ⟨"a", "Ann", [cC6], true, 0, true, false⟩

/-- A defender with exactly three cards. -/
def p3B : Player :=
  ⟨"b", "Bob", [⟨"spades", "9", 9, false⟩, ⟨"spades", "10", 10, false⟩,
    ⟨"spades", "J", 11, false⟩], true, 1, true, false⟩

/-- An attacking-phase room whose battlefield holds three fully defended
pairs while the defender has three cards: zero undefended attacks, yet the
total battlefield length has reached min 6 3. -/
def c3cexL : Room :=
  ⟨[p3A, p3B], "playing", "attacking",
    [], [⟨cS6, some cH8, "a"⟩, ⟨cD7, some cD8, "a"⟩, ⟨cC9, some cC10, "a"⟩],
    "hearts", some "a", some "b", [], [], [], 6, [], ["a", "b"]⟩



/-- Two refutations of the original attack rule.  First, with the phase at
`defending` and every acceptance condition of the claim satisfied (eligible
attacker, card held, one undefended attack below min 6 2, matching rank) the
intent is silently dropped: the handler only attacks while the phase is
exactly `attacking`.  Second, with zero undefended attacks but three defended
pairs and a three-card defender, the claim requires acceptance (0 < min 6 3)
yet the handler rejects: its limit compares the total battlefield length, not
the undefended count. -/
theorem c3_attack_counterexample :
    (playCard c1roomD "a" ⟨0, 0⟩ = .ok (c1roomD, []) ∧
      c1roomD.gamePhase = "defending" ∧
      (c1roomD.battlefield.filter (fun pr => pr.defense.isNone)).length < min 6 2 ∧
      (battlefieldRanks c1roomD.battlefield).contains cS6.rank = true) ∧
    ((c3cexL.battlefield.filter (fun pr => pr.defense.isNone)).length = 0 ∧
      (battlefieldRanks c3cexL.battlefield).contains cC6.rank = true ∧
      playCard c3cexL "a" ⟨0, 0⟩
        = .ok (c3cexL, [Emit.errorMsg "Cannot attack with more cards"])) := by
  exact ⟨⟨rfl, rfl, by decide, rfl⟩, ⟨rfl, rfl, rfl⟩⟩

/-- The amended attack rule evaluated on the sample attacking-phase room: the
first attack of the round is accepted, lands as an undefended pair and flips
the phase to defending. -/
theorem c3_attack_amended_witness :
    ∃ r' es, playCard c1roomA "a" ⟨0, 0⟩ = Except.ok (r', es) ∧
      r'.battlefield = c1roomA.battlefield ++ [BattlefieldPair.mk cS6 none "a"] ∧
      r'.gamePhase = "defending" ∧
      handOf r' "a" = some (p1A.hand.eraseIdx 0) := by
  exact (c3_attack_amended c1roomA "a" "b" 0 0 p1A p1B cS6 rfl rfl rfl rfl rfl
    (by decide) rfl).1 ⟨rfl, by decide, Or.inl rfl⟩



/-- The throw-in window evaluated concretely: take-cards on the sample
defending room freezes rank 6 and cap min 6 2, and a throw-in of a six in the
sample throw-in room is accepted into the pile. -/
theorem c4_throw_in_window_witness :
    (∃ r1, takeCards c1roomD "b" = Except.ok (r1, [Emit.event "throwInPhase"]) ∧
      r1.maxThrowInTotal = 2 ∧
      r1.validThrowInRanks = ["6"] ∧
      r1.gamePhase = "throwIn") ∧
    (∃ r2 es, playCard c1roomT "a" ⟨0, 0⟩ = Except.ok (r2, es) ∧
      r2.throwInCards = c1roomT.throwInCards ++ [ThrowInEntry.mk cS6 "a"] ∧
      r2.battlefield = c1roomT.battlefield ∧
      handOf r2 "a" = some (p1A.hand.eraseIdx 0)) := by
  have h := c4_throw_in_window c1roomD "b" p1B rfl rfl rfl
  obtain ⟨⟨r1, heq, hmax, hvr, hph, _, _⟩, hall⟩ := h
  refine ⟨⟨r1, heq, hmax, hvr, hph⟩, ?_⟩
  exact (hall c1roomT "a" 0 0 p1A cS6 rfl rfl rfl rfl rfl).1 ⟨rfl, by decide⟩

/-- Take settlement evaluated concretely on the sample defending room: the
battlefield clears, the phase returns to attacking and the defender keeps the
defender role (no rotation). -/
theorem c5_take_settlement_witness :
    ∃ r' es, completeTakeCards c1roomD = Except.ok (r', es) ∧
      r'.battlefield = [] ∧
      r'.throwInCards = [] ∧
      r'.gamePhase = "attacking" ∧
      r'.initialAttackerId = c1roomD.initialAttackerId ∧
      r'.currentDefenderId = c1roomD.currentDefenderId ∧
      findPlayer r' "b" = some { p1B with
        hand := p1B.hand ++ (battlefieldCards c1roomD.battlefield
          ++ c1roomD.throwInCards.map (fun e => e.card)) } := by
  have h := c5_take_settlement c1roomD "b" "a" p1B p1A rfl rfl rfl rfl (by decide)
  obtain ⟨⟨r', es, heq, hbf, hti, hvr, hph, hia, hcd, hdf, _⟩, _, _⟩ := h
  exact ⟨r', es, heq, hbf, hti, hph, hia, hcd, hdf⟩

/-- The deflect rule evaluated concretely: the sample defender deflects with
the six of clubs, the pair joins the battlefield attributed to them, and the
defender role passes to the next eligible player. -/
theorem c7_deflect_witness :
    ∃ r' es, deflectAttack c1roomD "b" 1 = Except.ok (r', es) ∧
      r'.battlefield = c1roomD.battlefield ++ [BattlefieldPair.mk cC6 none "b"] ∧
      r'.currentDefenderId = some "a" ∧
      r'.gamePhase = "defending" ∧
      handOf r' "b" = some (p1B.hand.eraseIdx 1) := by
  have h := c7_deflect c1roomD "b" 1 p1B cC6 rfl rfl rfl rfl rfl (Or.inl (by decide))
  obtain ⟨r', es, heq, hbf, hcd, hph, _, hho, _⟩ :=
    h.2.2.2.2 p1A rfl rfl rfl (by decide)
  exact ⟨r', es, heq, hbf, hcd, hph, hho⟩

/-- The defense-targeting rule evaluated concretely: any supplied target
index is ignored, and the legal trump defense lands on the first undefended
pair. -/
theorem c10_defense_first_undefended_witness :
    playCard c1roomD "b" ⟨0, 5⟩ = playCard c1roomD "b" ⟨0, 9⟩ ∧
    ∃ r' es, playCard c1roomD "b" ⟨0, 0⟩ = Except.ok (r', es) ∧
      r'.battlefield = c1roomD.battlefield.set
        (c1roomD.battlefield.findIdx (fun x => x.defense.isNone))
        { BattlefieldPair.mk cS6 none "a" with defense := some cH8 } ∧
      handOf r' "b" = some (p1B.hand.eraseIdx 0) := by
  have h := c10_defense_first_undefended c1roomD "b" 0 p1B cH8 rfl rfl rfl rfl rfl 0
  exact ⟨h.1 5 9, h.2.2.1 ⟨cS6, none, "a"⟩ rfl rfl⟩



/-- Six-card hand for the counterexample initial attacker. -/
def c6handA : List Card := createDeckCards.take 6

/-- Five-card hand for the counterexample bystander attacker. -/
def c6handB : List Card := (createDeckCards.drop 6).take 5

/-- Five-card hand for the counterexample defender. -/
def c6handC : List Card := (createDeckCards.drop 11).take 5

/-- A three-player position about to settle a successful defense: the
initial attacker `a` already holds six cards, bystander `b` and defender `c`
hold five each, and exactly two cards remain in the deck (the top of the
deck, the popped end, is the last list entry). -/
def c6cex : Room :=
  ⟨[⟨"a", "Ann", c6handA, true, 0, true, false⟩,
    ⟨"b", "Bob", c6handB, true, 1, true, false⟩,
    ⟨"c", "Cid", c6handC, true, 2, true, false⟩],
    "playing", "attacking", [cD7, cD8], [], "hearts", some "a", some "c",
    ["b"], [], [], 6, [], ["a", "b", "c"]⟩

/-- Refutation of the claimed draw order: settling the successful defense of
`c6cex` hands the top deck card to bystander `b`, not to the defender `c` —
after the initial attacker, players draw in players-array order, the defender
is not second in line. -/
theorem c6_draw_order_counterexample :
    handOf (completeSuccessfulDefense c6cex).1 "b" = some (c6handB ++ [cD8]) ∧
    handOf (completeSuccessfulDefense c6cex).1 "c" = some (c6handC ++ [cD7]) ∧
    (completeSuccessfulDefense c6cex).1.deck = [] := by
  exact ⟨rfl, rfl, rfl⟩

/-- The amended successful-defense settlement evaluated on the sample
defending room: battlefield cleared, phase back to attacking, and the old
defender holds the attacking initiative. -/
theorem c6_defense_settlement_witness :
    ∃ r' es, completeSuccessfulDefense c1roomD = (r', es) ∧
      r'.battlefield = [] ∧
      r'.gamePhase = "attacking" ∧
      r'.initialAttackerId = some "b" := by
  obtain ⟨⟨r', es, heq, hbf, hti, hph, hia, _⟩, _⟩ :=
    c6_defense_settlement c1roomD "b" "a" p1B p1A rfl rfl rfl rfl
  exact ⟨r', es, heq, hbf, hph, hia⟩

/-- A finished-game position: the deck is empty, `a` has already won and
only `b` still holds a card. -/
def c8room : Room :=
  ⟨[⟨"a", "Ann", [], true, 0, false, true⟩,
    ⟨"b", "Bob", [cS6], true, 1, true, false⟩],
    "playing", "defending", [], [], "hearts", some "a", some "b",
    [], [], [], 6, [], ["a", "b"]⟩

/-- Refutation of the claimed `voting` transition: on game end the state
becomes `finished` (and the phase is left untouched); no voting state or
rematch window exists in the handler. -/
theorem c8_game_end_counterexample :
    (checkGameEnd c8room).1.gameState = "finished" ∧
    (checkGameEnd c8room).1.gameState ≠ "voting" ∧
    (checkGameEnd c8room).1.gamePhase = c8room.gamePhase ∧
    (checkGameEnd c8room).1.gamePhase ≠ "voting" := by
  exact ⟨rfl, by decide, rfl, by decide⟩

/-- The amended game-end rule evaluated on the finished-game position: the
state becomes `finished` and the lone card-holding player is announced as
the Durak. -/
theorem c8_game_end_amended_witness :
    (checkGameEnd c8room).1.gameState = "finished" ∧
    (checkGameEnd c8room).2 = [Emit.gameOver "b"] := by
  have h := c8_game_end_amended c8room rfl (by decide)
  exact ⟨h.1, h.2.2.2.1 ⟨"b", "Bob", [cS6], true, 1, true, false⟩ rfl⟩

/-- The attacking-phase room with one attack already placed, used to drive
the negative-index fault. -/
def c9room : Room :=
  { c1roomA with battlefield := [⟨cD7, none, "a"⟩] }

/-- C9: the negative-index guard is one-sided.  A `playCard` intent with
`cardIndex = -1` from an eligible attacker passes the `cardIndex >=
hand.length` check, reads `undefined` from the hand, and — the battlefield
being non-empty — the handler then dereferences `.rank` of `undefined` and
throws, modelled here as the `.error` outcome: the malformed intent crashes
the handler instead of being validated and rejected. -/
theorem c9_negative_index_crash :
    playCard c9room "a" ⟨-1, 0⟩ = .error () ∧
    ¬ ((p1A.hand.length : Int) ≤ (-1 : Int)) ∧
    jsIndex p1A.hand (-1) = none := by
  exact ⟨rfl, by decide, rfl⟩

end Durak
